import Mathlib

/-
Verification of the backend orchestration core of claude-code-flow.

The definitions below are a shallow embedding of the TypeScript sources:
  src/core/backend-service-manager.ts   (ServiceState, BaseBackendService,
                                         BackendServiceManager)
  src/core/backend-initializer.ts       (BackendInitializer, component factory)
  src/core/backend-orchestrator.ts      (BackendOrchestrator)
  src/services/coordination-service.ts  (CoordinationService.beforeStart)

Asynchronous methods are embedded as pure functions: a method that can throw
returns an Except value, and the state of a service object is passed
explicitly.  Promise.race timeouts and the user supplied doStart/doStop/
doHealthCheck implementations are abstracted by boolean outcome fields on the
embedded service record (the manager treats them as opaque).
-/

set_option linter.unusedVariables false
set_option linter.unreachableTactic false
set_option linter.unusedTactic false

namespace ClaudeFlow

/-- Lifecycle states of a backend service: the enum ServiceState of
src/core/backend-service-manager.ts (lines 13-20). -/
inductive ServiceState where
  | stopped
  | starting
  | running
  | stopping
  | error
  | maintenance
deriving DecidableEq, Repr, Fintype

/-- Error values thrown by the backend core.  The constructors serviceError,
serviceStartupError, serviceShutdownError, initializationError and systemError
embed the classes that src/core imports from src/utils/errors.js (that file is
not part of the reviewed sources; only the construction sites are, and they
are all under src/).  jsError embeds a plain JavaScript Error value.
cyclicDependencyError is Modelled from the spec: the spec's error taxonomy
(section 7) names a CyclicDependencyError class that is constructed nowhere in
the sources under src/; the constructor exists here so that statements about
it can be made. -/
inductive CoreError where
  | serviceError (msg : String)
  | serviceStartupError (msg : String)
  | serviceShutdownError (msg : String)
  | initializationError (msg : String)
  | systemError (msg : String)
  | jsError (msg : String)
  | cyclicDependencyError (msg : String)
deriving DecidableEq, Repr

/-- Dependency graph in registration order: the pair (name, dependencies)
for each registered node, mirroring the insertion-ordered Maps
services/dependencyGraph of BackendServiceManager and components of
BackendInitializer. -/
abbrev Graph := List (String × List String)

/-- Names of the registered nodes in registration order
(this.services.keys() / this.components.values() iteration order). -/
def names (g : Graph) : List String := g.map Prod.fst

/-- Dependencies recorded for a node: this.dependencyGraph.get(name) with
an empty set as default (backend-service-manager.ts line 492). -/
def depsOf (g : Graph) (n : String) : List String :=
  ((g.find? (fun p => p.1 == n)).map Prod.snd).getD []

/-- Processing of one dependency list inside the visit closure of
calculateOrder (backend-service-manager.ts lines 492-497): each dependency
that names a registered node is visited, unregistered names are skipped
(the initializer logs a warning for them).  The recursive visit call is
passed in as f. -/
def visitDeps (g : Graph) (f : String → List String → Except CoreError (List String)) :
    List String → List String → Except CoreError (List String)
  | [], order => .ok order
  | d :: ds, order =>
    if d ∈ names g then
      match f d order with
      | .error e => .error e
      | .ok order₁ => visitDeps g f ds order₁
    else
      visitDeps g f ds order

/-- Depth-first visit of calculateOrder (backend-service-manager.ts lines
481-502).  visiting is the in-progress set (the current recursion stack),
order doubles as the done set: in the source, visited.add and order.push
always happen together, so membership in order is membership in visited.
The Nat argument is recursion fuel, a device of the embedding only: the
source recursion terminates because visiting grows on every nested call,
and the adequacy lemmas below show the fuel used by calculateOrder is
never exhausted. -/
def visit (g : Graph) : Nat → String → List String → List String →
    Except CoreError (List String)
  | 0, _, _, _ => .error (.systemError "recursion limit")
  | fuel + 1, n, visiting, order =>
    if n ∈ visiting then
      .error (.serviceError ("Circular dependency detected involving " ++ n))
    else if n ∈ order then
      .ok order
    else
      match visitDeps g (fun d ord => visit g fuel d (n :: visiting) ord) (depsOf g n) order with
      | .error e => .error e
      | .ok order₁ => .ok (order₁ ++ [n])

/-- Top-level loop of calculateOrder (backend-service-manager.ts lines
504-509): every registered name not yet visited is visited, with an empty
recursion stack. -/
def calcLoop (g : Graph) : List String → List String → Except CoreError (List String)
  | [], order => .ok order
  | n :: ns, order =>
    if n ∈ order then
      calcLoop g ns order
    else
      match visit g (g.length + 1) n [] order with
      | .error e => .error e
      | .ok order₁ => calcLoop g ns order₁

/-- BackendServiceManager.calculateOrder (lines 475-513): topological sort of
the registered services.  On success it returns the start order; the manager
stores this as startOrder and its reverse as stopOrder. -/
def calculateOrder (g : Graph) : Except CoreError (List String) :=
  calcLoop g (names g) []

/-- Start and stop order as stored by calculateOrder (lines 511-512):
this.startOrder = order; this.stopOrder = [...order].reverse(). -/
def calculateOrders (g : Graph) : Except CoreError (List String × List String) :=
  match calculateOrder g with
  | .error e => .error e
  | .ok order => .ok (order, order.reverse)

/-- BackendInitializer.calculateInitializationOrder (backend-initializer.ts
lines 288-334): the same depth-first algorithm over registered components,
except that a cycle raises InitializationError instead of ServiceError.
The embedding maps the error constructor over the shared algorithm. -/
def calculateInitializationOrder (g : Graph) : Except CoreError (List String) :=
  match calculateOrder g with
  | .error (.serviceError msg) => .error (.initializationError msg)
  | r => r

/-- Shutdown order of BackendInitializer.shutdown (backend-initializer.ts
line 184): const shutdownOrder = [...this.initializationOrder].reverse(). -/
def shutdownOrder (initializationOrder : List String) : List String :=
  initializationOrder.reverse

deriving instance DecidableEq for Except

example : calculateOrder [("a", []), ("b", ["a"]), ("c", ["b"])] = .ok ["a", "b", "c"] := by
  decide

example : calculateOrder [("c", ["b"]), ("b", ["a"]), ("a", [])] = .ok ["a", "b", "c"] := by
  decide

example : calculateOrder [("X", ["Y"]), ("Y", ["X"])] =
    .error (.serviceError "Circular dependency detected involving X") := by
  decide

/-- Position of the first occurrence of an element in a list (the index a
test would observe in the computed order array; returns the length when the
element is absent). -/
def posIn : List String → String → Nat
  | [], _ => 0
  | x :: xs, a => if x = a then 0 else posIn xs a + 1

theorem posIn_lt_length {l : List String} {a : String} (h : a ∈ l) :
    posIn l a < l.length := by
  induction l with
  | nil => cases h
  | cons x xs ih =>
    simp only [posIn]
    by_cases hx : x = a
    · simp [hx]
    · have : a ∈ xs := by
        cases h with
        | head => exact absurd rfl hx
        | tail _ h => exact h
      simp only [if_neg hx, List.length_cons]
      exact Nat.succ_lt_succ (ih this)

theorem posIn_append_left {l₁ : List String} (l₂ : List String) {a : String}
    (h : a ∈ l₁) : posIn (l₁ ++ l₂) a = posIn l₁ a := by
  induction l₁ with
  | nil => cases h
  | cons x xs ih =>
    simp only [List.cons_append, posIn]
    by_cases hx : x = a
    · simp [hx]
    · have : a ∈ xs := by
        cases h with
        | head => exact absurd rfl hx
        | tail _ h => exact h
      simp [hx, ih this]

theorem posIn_append_right {l₁ : List String} (l₂ : List String) {a : String}
    (h : a ∉ l₁) : posIn (l₁ ++ l₂) a = l₁.length + posIn l₂ a := by
  induction l₁ with
  | nil => simp [posIn]
  | cons x xs ih =>
    have hx : x ≠ a := fun hxa => h (hxa ▸ List.mem_cons_self x xs)
    have hxs : a ∉ xs := fun hmem => h (List.mem_cons_of_mem x hmem)
    simp only [List.cons_append, posIn, if_neg hx, List.length_cons, List.append_eq]
    have := ih hxs
    omega

/-- Dependency edge of the registered graph: a declares d as a dependency and
both names are registered (unregistered dependency names are skipped by the
order computation). -/
def Edge (g : Graph) (a d : String) : Prop :=
  a ∈ names g ∧ d ∈ names g ∧ d ∈ depsOf g a

instance (g : Graph) (a d : String) : Decidable (Edge g a d) := by
  unfold Edge
  infer_instance

/-- Dependency path from a to b through the intermediate nodes mid. -/
def IsPath (g : Graph) : String → List String → String → Prop
  | a, [], b => Edge g a b
  | a, x :: xs, b => Edge g a x ∧ IsPath g x xs b

instance isPathDecidable (g : Graph) :
    (a : String) → (mid : List String) → (b : String) → Decidable (IsPath g a mid b)
  | a, [], b => inferInstanceAs (Decidable (Edge g a b))
  | a, x :: xs, b => @instDecidableAnd _ _ _ (isPathDecidable g x xs b)

/-- The node n lies on a dependency cycle of the registered graph. -/
def OnCycle (g : Graph) (n : String) : Prop := ∃ mid, IsPath g n mid n

/-- The registered graph contains a dependency cycle. -/
def HasCycle (g : Graph) : Prop := ∃ n mid, IsPath g n mid n

theorem isPath_snoc {g : Graph} {a b c : String} {mid : List String}
    (hp : IsPath g a mid b) (he : Edge g b c) : IsPath g a (mid ++ [b]) c := by
  induction mid generalizing a with
  | nil => exact ⟨hp, he⟩
  | cons x xs ih => exact ⟨hp.1, ih hp.2⟩

theorem isPath_rank {g : Graph} {f : String → Nat}
    (hf : ∀ x y, Edge g x y → f y < f x) :
    ∀ {a b : String} {mid : List String}, IsPath g a mid b → f b < f a := by
  intro a b mid
  induction mid generalizing a with
  | nil => exact fun hp => hf a b hp
  | cons x xs ih => exact fun hp => Nat.lt_trans (ih hp.2) (hf a x hp.1)

/-- A graph admitting a rank function that strictly decreases along every
edge is acyclic. -/
theorem acyclic_of_rank {g : Graph} (f : String → Nat)
    (hf : ∀ x y, Edge g x y → f y < f x) : ¬ HasCycle g := by
  rintro ⟨n, mid, hp⟩
  exact Nat.lt_irrefl (f n) (isPath_rank hf hp)

/-- Invariant of the visiting stack of the depth-first visit: the head was
reached from the next element by a dependency edge, and so on down the
stack; every stack member is a registered name. -/
def StackChain (g : Graph) : List String → Prop
  | [] => True
  | [a] => a ∈ names g
  | a :: b :: s => a ∈ names g ∧ a ∈ depsOf g b ∧ StackChain g (b :: s)

theorem stackChain_head {g : Graph} {a : String} {s : List String}
    (h : StackChain g (a :: s)) : a ∈ names g := by
  cases s with
  | nil => exact h
  | cons b s => exact h.1

theorem stackChain_path_to_head {g : Graph} :
    ∀ {s : List String} {a x : String}, StackChain g (a :: s) → x ∈ s →
      ∃ mid, IsPath g x mid a := by
  intro s
  induction s with
  | nil =>
    intro a x _ hx
    cases hx
  | cons b s ih =>
    intro a x h hx
    have hchain : StackChain g (b :: s) := h.2.2
    have hedge : Edge g b a := ⟨stackChain_head hchain, h.1, h.2.1⟩
    cases hx with
    | head => exact ⟨[], hedge⟩
    | tail _ hx =>
      obtain ⟨mid, hp⟩ := ih hchain hx
      exact ⟨mid ++ [b], isPath_snoc hp hedge⟩

/-- A node that is revisited while still on the visiting stack lies on a
dependency cycle. -/
theorem onCycle_of_mem_stack {g : Graph} {n : String} {s : List String}
    (h : StackChain g (n :: s)) (hn : n ∈ s) : OnCycle g n :=
  stackChain_path_to_head h hn

/-- The order list places every registered dependency of each of its members
strictly before that member. -/
def DepsSorted (g : Graph) (order : List String) : Prop :=
  ∀ n ∈ order, ∀ d ∈ depsOf g n, d ∈ names g →
    d ∈ order ∧ posIn order d < posIn order n

/-- Invariant maintained by the depth-first visit for its order accumulator:
no duplicates, only registered names, dependencies placed first. -/
def OrderInv (g : Graph) (order : List String) : Prop :=
  order.Nodup ∧ (∀ x ∈ order, x ∈ names g) ∧ DepsSorted g order

theorem orderInv_nil {g : Graph} : OrderInv g [] := by
  refine ⟨List.nodup_nil, ?_, ?_⟩ <;> intro x hx <;> cases hx

theorem visitDeps_ok {g : Graph} {f : String → List String → Except CoreError (List String)}
    {vis : List String}
    (hf : ∀ d ord ord₂, f d ord = .ok ord₂ → d ∈ names g → OrderInv g ord →
      (∃ ext, ord₂ = ord ++ ext ∧ ∀ x ∈ ext, x ∈ names g ∧ x ∉ vis) ∧
        OrderInv g ord₂ ∧ d ∈ ord₂) :
    ∀ ds ord ord₂, visitDeps g f ds ord = .ok ord₂ → OrderInv g ord →
      (∃ ext, ord₂ = ord ++ ext ∧ ∀ x ∈ ext, x ∈ names g ∧ x ∉ vis) ∧
        OrderInv g ord₂ ∧ (∀ d ∈ ds, d ∈ names g → d ∈ ord₂) := by
  intro ds
  induction ds with
  | nil =>
    intro ord ord₂ h hinv
    simp only [visitDeps] at h
    cases h
    refine ⟨⟨[], by simp, by simp⟩, hinv, ?_⟩
    intro d hd
    cases hd
  | cons d ds ih =>
    intro ord ord₂ h hinv
    simp only [visitDeps] at h
    by_cases hdn : d ∈ names g
    · rw [if_pos hdn] at h
      cases hfd : f d ord with
      | error e => rw [hfd] at h; cases h
      | ok ord₁ =>
        rw [hfd] at h
        obtain ⟨⟨ext₁, hext₁, hext₁m⟩, hinv₁, hd₁⟩ := hf d ord ord₁ hfd hdn hinv
        obtain ⟨⟨ext₂, hext₂, hext₂m⟩, hinv₂, hds₂⟩ := ih ord₁ ord₂ h hinv₁
        refine ⟨⟨ext₁ ++ ext₂, ?_, ?_⟩, hinv₂, ?_⟩
        · rw [hext₂, hext₁, List.append_assoc]
        · intro x hx
          rcases List.mem_append.mp hx with hx | hx
          · exact hext₁m x hx
          · exact hext₂m x hx
        · intro d' hd' _
          cases hd' with
          | head => rw [hext₂]; exact List.mem_append_left _ hd₁
          | tail _ hd' => exact hds₂ d' hd' ‹d' ∈ names g›
    · rw [if_neg hdn] at h
      obtain ⟨hext, hinv₂, hds₂⟩ := ih ord ord₂ h hinv
      refine ⟨hext, hinv₂, ?_⟩
      intro d' hd' hd'n
      cases hd' with
      | head => exact absurd hd'n hdn
      | tail _ hd' => exact hds₂ d' hd' hd'n

theorem visit_ok {g : Graph} :
    ∀ fuel n visiting order order₂,
      visit g fuel n visiting order = .ok order₂ → n ∈ names g → OrderInv g order →
      (∃ ext, order₂ = order ++ ext ∧ ∀ x ∈ ext, x ∈ names g ∧ x ∉ visiting) ∧
        OrderInv g order₂ ∧ n ∈ order₂ := by
  intro fuel
  induction fuel with
  | zero =>
    intro n visiting order order₂ h
    cases h
  | succ fuel ih =>
    intro n visiting order order₂ h hn hinv
    simp only [visit] at h
    by_cases hvis : n ∈ visiting
    · rw [if_pos hvis] at h; cases h
    · rw [if_neg hvis] at h
      by_cases hord : n ∈ order
      · rw [if_pos hord] at h
        cases h
        refine ⟨⟨[], by simp, by simp⟩, hinv, hord⟩
      · rw [if_neg hord] at h
        cases hdeps : visitDeps g (fun d ord => visit g fuel d (n :: visiting) ord)
            (depsOf g n) order with
        | error e => rw [hdeps] at h; cases h
        | ok order₁ =>
          rw [hdeps] at h
          cases h
          have hf : ∀ d ord ord₂, visit g fuel d (n :: visiting) ord = .ok ord₂ →
              d ∈ names g → OrderInv g ord →
              (∃ ext, ord₂ = ord ++ ext ∧ ∀ x ∈ ext, x ∈ names g ∧ x ∉ n :: visiting) ∧
                OrderInv g ord₂ ∧ d ∈ ord₂ := by
            intro d ord ord₂ hv hd hi
            exact ih d (n :: visiting) ord ord₂ hv hd hi
          obtain ⟨⟨ext₁, hext₁, hext₁m⟩, hinv₁, hdeps₁⟩ :=
            visitDeps_ok hf (depsOf g n) order order₁ hdeps hinv
          have hnord₁ : n ∉ order₁ := by
            rw [hext₁]
            intro hmem
            rcases List.mem_append.mp hmem with hmem | hmem
            · exact hord hmem
            · exact (hext₁m n hmem).2 (List.mem_cons_self n visiting)
          obtain ⟨hnd₁, hmem₁, hsort₁⟩ := hinv₁
          refine ⟨⟨ext₁ ++ [n], ?_, ?_⟩, ⟨?_, ?_, ?_⟩, ?_⟩
          · rw [hext₁, List.append_assoc]
          · intro x hx
            rcases List.mem_append.mp hx with hx | hx
            · exact ⟨(hext₁m x hx).1, fun hc => (hext₁m x hx).2 (List.mem_cons_of_mem n hc)⟩
            · rw [List.mem_singleton.mp hx]
              exact ⟨hn, hvis⟩
          · rw [List.nodup_append]
            exact ⟨hnd₁, List.nodup_singleton n,
              fun a ha hb => by
                rw [List.mem_singleton.mp hb] at ha
                exact hnord₁ ha⟩
          · intro x hx
            rcases List.mem_append.mp hx with hx | hx
            · exact hmem₁ x hx
            · rw [List.mem_singleton.mp hx]
              exact hn
          · intro m hm d hd hdn
            rcases List.mem_append.mp hm with hm | hm
            · obtain ⟨hdo, hpos⟩ := hsort₁ m hm d hd hdn
              exact ⟨List.mem_append_left _ hdo, by
                rw [posIn_append_left _ hdo, posIn_append_left _ hm]
                exact hpos⟩
            · rw [List.mem_singleton.mp hm] at hd ⊢
              have hdo : d ∈ order₁ := hdeps₁ d hd hdn
              refine ⟨List.mem_append_left _ hdo, ?_⟩
              rw [posIn_append_left _ hdo, posIn_append_right _ hnord₁]
              have := posIn_lt_length hdo
              simp only [posIn]
              omega
          · exact List.mem_append_right _ (List.mem_singleton.mpr rfl)

theorem calcLoop_ok {g : Graph} :
    ∀ ns order order₂, calcLoop g ns order = .ok order₂ →
      (∀ x ∈ ns, x ∈ names g) → OrderInv g order →
      OrderInv g order₂ ∧ (∀ x ∈ order, x ∈ order₂) ∧ (∀ x ∈ ns, x ∈ order₂) := by
  intro ns
  induction ns with
  | nil =>
    intro order order₂ h _ hinv
    simp only [calcLoop] at h
    cases h
    exact ⟨hinv, fun x hx => hx, fun x hx => by cases hx⟩
  | cons n ns ih =>
    intro order order₂ h hns hinv
    simp only [calcLoop] at h
    by_cases hord : n ∈ order
    · rw [if_pos hord] at h
      obtain ⟨hinv₂, hsub, hmem⟩ := ih order order₂ h (fun x hx => hns x (List.mem_cons_of_mem n hx)) hinv
      refine ⟨hinv₂, hsub, ?_⟩
      intro x hx
      cases hx with
      | head => exact hsub n hord
      | tail _ hx => exact hmem x hx
    · rw [if_neg hord] at h
      cases hv : visit g (g.length + 1) n [] order with
      | error e => rw [hv] at h; cases h
      | ok order₁ =>
        rw [hv] at h
        obtain ⟨⟨ext, hext, _⟩, hinv₁, hn₁⟩ :=
          visit_ok (g.length + 1) n [] order order₁ hv (hns n (List.mem_cons_self n ns)) hinv
        obtain ⟨hinv₂, hsub, hmem⟩ := ih order₁ order₂ h (fun x hx => hns x (List.mem_cons_of_mem n hx)) hinv₁
        refine ⟨hinv₂, ?_, ?_⟩
        · intro x hx
          exact hsub x (by rw [hext]; exact List.mem_append_left _ hx)
        · intro x hx
          cases hx with
          | head => exact hsub n hn₁
          | tail _ hx => exact hmem x hx

/-- Success of calculateOrder yields an order that is a duplicate-free cover
of the registered names placing every registered dependency strictly before
its dependent. -/
theorem calculateOrder_ok {g : Graph} {order : List String}
    (h : calculateOrder g = .ok order) :
    OrderInv g order ∧ ∀ x ∈ names g, x ∈ order := by
  obtain ⟨hinv, _, hmem⟩ := calcLoop_ok (names g) [] order h (fun x hx => hx) orderInv_nil
  exact ⟨hinv, hmem⟩

/-- A graph on which calculateOrder succeeds is acyclic: the computed
positions are a rank function. -/
theorem calculateOrder_ok_acyclic {g : Graph} {order : List String}
    (h : calculateOrder g = .ok order) : ¬ HasCycle g := by
  obtain ⟨⟨_, _, hsort⟩, hcover⟩ := calculateOrder_ok h
  refine acyclic_of_rank (posIn order) ?_
  intro x y hxy
  obtain ⟨hx, hy, hdep⟩ := hxy
  exact (hsort x (hcover x hx) y hdep hy).2

theorem visitDeps_no_fuel {g : Graph} {f : String → List String → Except CoreError (List String)}
    (hf : ∀ d ord, d ∈ names g → ∀ s, f d ord ≠ .error (.systemError s)) :
    ∀ ds ord s, visitDeps g f ds ord ≠ .error (.systemError s) := by
  intro ds
  induction ds with
  | nil =>
    intro ord s h
    simp only [visitDeps] at h
    exact Except.noConfusion h
  | cons d ds ih =>
    intro ord s h
    simp only [visitDeps] at h
    by_cases hdn : d ∈ names g
    · rw [if_pos hdn] at h
      cases hfd : f d ord with
      | error e =>
        rw [hfd] at h
        cases h
        exact hf d ord hdn s hfd
      | ok ord₁ =>
        rw [hfd] at h
        exact ih ord₁ s h
    · rw [if_neg hdn] at h
      exact ih ord s h

/-- Recursion-fuel adequacy: the visiting stack is duplicate-free and only
holds registered names, so the recursion depth of the source's visit never
exceeds the number of registered nodes, and fuel above that bound is never
exhausted. -/
theorem visit_no_fuel {g : Graph} (hg : (names g).Nodup) :
    ∀ fuel n visiting order, visiting.Nodup → (∀ v ∈ visiting, v ∈ names g) →
      n ∈ names g → (names g).length - visiting.length < fuel →
      ∀ s, visit g fuel n visiting order ≠ .error (.systemError s) := by
  intro fuel
  induction fuel with
  | zero =>
    intro n visiting order _ _ _ hbound
    exact absurd hbound (Nat.not_lt_zero _)
  | succ fuel ih =>
    intro n visiting order hnd hsub hn hbound s h
    simp only [visit] at h
    by_cases hvis : n ∈ visiting
    · rw [if_pos hvis] at h
      cases h
    · rw [if_neg hvis] at h
      by_cases hord : n ∈ order
      · rw [if_pos hord] at h
        cases h
      · rw [if_neg hord] at h
        have hstack : (n :: visiting).Nodup := List.nodup_cons.mpr ⟨hvis, hnd⟩
        have hstacksub : ∀ v ∈ n :: visiting, v ∈ names g := by
          intro v hv
          cases hv with
          | head => exact hn
          | tail _ hv => exact hsub v hv
        have hcard : visiting.length + 1 ≤ (names g).length := by
          have := List.Subperm.length_le (List.subperm_of_subset hstack hstacksub)
          simpa using this
        have hf : ∀ d ord, d ∈ names g → ∀ s,
            visit g fuel d (n :: visiting) ord ≠ .error (.systemError s) := by
          intro d ord hd s
          refine ih d (n :: visiting) ord hstack hstacksub hd ?_ s
          simp only [List.length_cons]
          omega
        cases hdeps : visitDeps g (fun d ord => visit g fuel d (n :: visiting) ord)
            (depsOf g n) order with
        | error e =>
          rw [hdeps] at h
          cases h
          exact visitDeps_no_fuel hf (depsOf g n) order s hdeps
        | ok order₁ =>
          rw [hdeps] at h
          cases h

/-- The top-level loop of calculateOrder calls visit with fuel one more than
the number of registered nodes and an empty stack, so fuel is never
exhausted. -/
theorem calcLoop_no_fuel {g : Graph} (hg : (names g).Nodup) :
    ∀ ns order, (∀ x ∈ ns, x ∈ names g) →
      ∀ s, calcLoop g ns order ≠ .error (.systemError s) := by
  intro ns
  induction ns with
  | nil =>
    intro order _ s h
    simp only [calcLoop] at h
    exact Except.noConfusion h
  | cons n ns ih =>
    intro order hns s h
    simp only [calcLoop] at h
    by_cases hord : n ∈ order
    · rw [if_pos hord] at h
      exact ih order (fun x hx => hns x (List.mem_cons_of_mem n hx)) s h
    · rw [if_neg hord] at h
      cases hv : visit g (g.length + 1) n [] order with
      | error e =>
        rw [hv] at h
        cases h
        refine visit_no_fuel hg (g.length + 1) n [] order List.nodup_nil
          (fun v hv => by cases hv) (hns n (List.mem_cons_self n ns)) ?_ s hv
        have : (names g).length = g.length := List.length_map g Prod.fst
        omega
      | ok order₁ =>
        rw [hv] at h
        exact ih order₁ (fun x hx => hns x (List.mem_cons_of_mem n hx)) s h

theorem visitDeps_err {g : Graph} {f : String → List String → Except CoreError (List String)}
    (P : CoreError → Prop) :
    ∀ ds ord e,
      (∀ d ∈ ds, ∀ ord e, d ∈ names g → f d ord = .error e → P e) →
      visitDeps g f ds ord = .error e → P e := by
  intro ds
  induction ds with
  | nil =>
    intro ord e _ h
    simp only [visitDeps] at h
    exact Except.noConfusion h
  | cons d ds ih =>
    intro ord e hf h
    simp only [visitDeps] at h
    by_cases hdn : d ∈ names g
    · rw [if_pos hdn] at h
      cases hfd : f d ord with
      | error e' =>
        rw [hfd] at h
        cases h
        exact hf d (List.mem_cons_self d ds) ord e hdn hfd
      | ok ord₁ =>
        rw [hfd] at h
        exact ih ord₁ e (fun d' hd' => hf d' (List.mem_cons_of_mem d hd')) h
    · rw [if_neg hdn] at h
      exact ih ord e (fun d' hd' => hf d' (List.mem_cons_of_mem d hd')) h

/-- Classification of visit failures: apart from fuel exhaustion (an artifact
of the embedding, excluded separately), the only failure is the in-progress
revisit, and its error is a ServiceError naming a node that lies on a
dependency cycle. -/
theorem visit_err {g : Graph} :
    ∀ fuel n visiting order e, visit g fuel n visiting order = .error e →
      StackChain g (n :: visiting) →
      (∃ s, e = .systemError s) ∨
        (∃ m, e = .serviceError ("Circular dependency detected involving " ++ m) ∧
          OnCycle g m) := by
  intro fuel
  induction fuel with
  | zero =>
    intro n visiting order e h _
    simp only [visit] at h
    cases h
    exact Or.inl ⟨_, rfl⟩
  | succ fuel ih =>
    intro n visiting order e h hchain
    simp only [visit] at h
    by_cases hvis : n ∈ visiting
    · rw [if_pos hvis] at h
      cases h
      exact Or.inr ⟨n, rfl, onCycle_of_mem_stack hchain hvis⟩
    · rw [if_neg hvis] at h
      by_cases hord : n ∈ order
      · rw [if_pos hord] at h
        cases h
      · rw [if_neg hord] at h
        cases hdeps : visitDeps g (fun d ord => visit g fuel d (n :: visiting) ord)
            (depsOf g n) order with
        | error e' =>
          rw [hdeps] at h
          cases h
          refine visitDeps_err
            (fun e => (∃ s, e = CoreError.systemError s) ∨
              (∃ m, e = CoreError.serviceError ("Circular dependency detected involving " ++ m) ∧
                OnCycle g m))
            (depsOf g n) order e ?_ hdeps
          intro d hddep ord' e' hdn hv
          exact ih d (n :: visiting) ord' e' hv ⟨hdn, hddep, hchain⟩
        | ok order₁ =>
          rw [hdeps] at h
          cases h

theorem calcLoop_err {g : Graph} :
    ∀ ns order e, calcLoop g ns order = .error e → (∀ x ∈ ns, x ∈ names g) →
      (∃ s, e = .systemError s) ∨
        (∃ m, e = .serviceError ("Circular dependency detected involving " ++ m) ∧
          OnCycle g m) := by
  intro ns
  induction ns with
  | nil =>
    intro order e h _
    simp only [calcLoop] at h
    exact Except.noConfusion h
  | cons n ns ih =>
    intro order e h hns
    simp only [calcLoop] at h
    by_cases hord : n ∈ order
    · rw [if_pos hord] at h
      exact ih order e h (fun x hx => hns x (List.mem_cons_of_mem n hx))
    · rw [if_neg hord] at h
      cases hv : visit g (g.length + 1) n [] order with
      | error e' =>
        rw [hv] at h
        cases h
        exact visit_err (g.length + 1) n [] order e hv (hns n (List.mem_cons_self n ns))
      | ok order₁ =>
        rw [hv] at h
        exact ih order₁ e h (fun x hx => hns x (List.mem_cons_of_mem n hx))

/-- A graph with a dependency cycle among registered nodes makes
calculateOrder fail with a ServiceError naming a node on a cycle. -/
theorem calculateOrder_cyclic {g : Graph} (hg : (names g).Nodup)
    (hcyc : HasCycle g) :
    ∃ m, calculateOrder g = .error
        (.serviceError ("Circular dependency detected involving " ++ m)) ∧
      OnCycle g m := by
  cases hres : calculateOrder g with
  | ok order => exact absurd hcyc (calculateOrder_ok_acyclic hres)
  | error e =>
    have hclass := calcLoop_err (names g) [] e hres (fun x hx => hx)
    rcases hclass with ⟨s, rfl⟩ | ⟨m, rfl, hm⟩
    · exact absurd hres (calcLoop_no_fuel hg (names g) [] (fun x hx => hx) s)
    · exact ⟨m, rfl, hm⟩

/-- Helper for the tie-break conjunct: a node of a graph whose every entry
declares no dependencies has an empty dependency list. -/
theorem depsOf_nil {g : Graph} (h : ∀ p ∈ g, p.2 = ([] : List String))
    (n : String) : depsOf g n = [] := by
  unfold depsOf
  cases hf : g.find? (fun p => p.1 == n) with
  | none => rfl
  | some p =>
    have : p ∈ g := List.mem_of_find?_eq_some hf
    simp [h p this]

theorem calcLoop_no_deps {g : Graph} (h : ∀ p ∈ g, p.2 = ([] : List String)) :
    ∀ ns order, ns.Nodup → (∀ n ∈ ns, n ∉ order) →
      calcLoop g ns order = .ok (order ++ ns) := by
  intro ns
  induction ns with
  | nil =>
    intro order _ _
    simp [calcLoop]
  | cons n ns ih =>
    intro order hnd hdis
    have hnord : n ∉ order := hdis n (List.mem_cons_self n ns)
    simp only [calcLoop, if_neg hnord]
    have hvisit : visit g (g.length + 1) n [] order = .ok (order ++ [n]) := by
      simp [visit, hnord, depsOf_nil h n, visitDeps]
    rw [hvisit]
    have hnd' : ns.Nodup := (List.nodup_cons.mp hnd).2
    have hdis' : ∀ m ∈ ns, m ∉ order ++ [n] := by
      intro m hm hmem
      rcases List.mem_append.mp hmem with hmem | hmem
      · exact hdis m (List.mem_cons_of_mem n hm) hmem
      · rw [List.mem_singleton.mp hmem] at hm
        exact (List.nodup_cons.mp hnd).1 hm
    show calcLoop g ns (order ++ [n]) = Except.ok (order ++ n :: ns)
    rw [ih (order ++ [n]) hnd' hdis']
    simp

/-- Claim C1 (amended).  For a duplicate-free set of registered nodes:
if the dependency graph restricted to registered names is acyclic, the
computed order covers the registered names without duplicates and places
every registered dependency strictly before each node that declares it,
and when no node declares dependencies the order is exactly the
registration order (ties broken by registration order); if the registered
graph contains a dependency cycle, order computation fails with a
ServiceError — not the spec's CyclicDependencyError class — whose message
names a participant of a cycle. -/
theorem calculateOrder_correct (g : Graph) (hg : (names g).Nodup) :
    (¬ HasCycle g →
      ∃ order, calculateOrder g = .ok order ∧ order.Nodup ∧
        (∀ x, x ∈ order ↔ x ∈ names g) ∧
        (∀ n ∈ names g, ∀ d ∈ depsOf g n, d ∈ names g →
          posIn order d < posIn order n) ∧
        ((∀ p ∈ g, p.2 = ([] : List String)) → order = names g)) ∧
    (HasCycle g →
      ∃ m, calculateOrder g = .error
          (.serviceError ("Circular dependency detected involving " ++ m)) ∧
        OnCycle g m) := by
  constructor
  · intro hacyc
    cases hres : calculateOrder g with
    | error e =>
      rcases calcLoop_err (names g) [] e hres (fun x hx => hx) with ⟨s, rfl⟩ | ⟨m, rfl, hm⟩
      · exact absurd hres (calcLoop_no_fuel hg (names g) [] (fun x hx => hx) s)
      · exact absurd ⟨m, hm⟩ hacyc
    | ok order =>
      obtain ⟨⟨hnd, hmem, hsort⟩, hcover⟩ := calculateOrder_ok hres
      refine ⟨order, rfl, hnd, fun x => ⟨hmem x, hcover x⟩, ?_, ?_⟩
      · intro n hn d hd hdn
        exact (hsort n (hcover n hn) d hd hdn).2
      · intro hnodeps
        have := calcLoop_no_deps hnodeps (names g) [] hg (fun n _ hc => by cases hc)
        rw [calculateOrder, this] at hres
        cases hres
        simp
  · exact calculateOrder_cyclic hg

/-- Detector used by the C1 counterexample: whether an order-computation
result is the spec's CyclicDependencyError. -/
def isCyclicDependencyFailure : Except CoreError (List String) → Bool
  | .error (.cyclicDependencyError _) => true
  | _ => false

/-- Claim C1 counterexample: on the two-node cycle X -> Y -> X the manager's
order computation throws the generic ServiceError class with a message naming
a cycle participant; it does not throw a CyclicDependencyError, so the claim
as stated (failure carries a CyclicDependencyError) is false on the code. -/
theorem calculateOrder_error_class_counterexample :
    calculateOrder [("X", ["Y"]), ("Y", ["X"])] =
        .error (.serviceError "Circular dependency detected involving X") ∧
      isCyclicDependencyFailure (calculateOrder [("X", ["Y"]), ("Y", ["X"])]) = false := by
  constructor
  · decide
  · decide

/-- Concrete registration used by the C1 witness: an acyclic graph with an
unregistered dependency name (missing) that the order computation skips. -/
def witnessAcyclicGraph : Graph :=
  [("logger", []), ("eventBus", ["logger"]), ("db", ["logger", "missing"])]

/-- Concrete registration used by the C1 witness: a two-node cycle. -/
def witnessCyclicGraph : Graph := [("X", ["Y"]), ("Y", ["X"])]

/-- Claim C1 witness: the amended theorem applied to a concrete acyclic
graph and to a concrete cyclic graph. -/
theorem calculateOrder_correct_witness :
    (∃ order, calculateOrder witnessAcyclicGraph = .ok order ∧ order.Nodup ∧
      (∀ x, x ∈ order ↔ x ∈ names witnessAcyclicGraph) ∧
      (∀ n ∈ names witnessAcyclicGraph, ∀ d ∈ depsOf witnessAcyclicGraph n,
        d ∈ names witnessAcyclicGraph → posIn order d < posIn order n) ∧
      ((∀ p ∈ witnessAcyclicGraph, p.2 = ([] : List String)) →
        order = names witnessAcyclicGraph)) ∧
    (∃ m, calculateOrder witnessCyclicGraph = .error
        (.serviceError ("Circular dependency detected involving " ++ m)) ∧
      OnCycle witnessCyclicGraph m) := by
  constructor
  · exact (calculateOrder_correct witnessAcyclicGraph (by decide)).1
      (calculateOrder_ok_acyclic
        (show calculateOrder witnessAcyclicGraph = .ok ["logger", "eventBus", "db"]
          from by decide))
  · exact (calculateOrder_correct witnessCyclicGraph (by decide)).2
      ⟨"X", ["Y"], by decide⟩

/-- Claim C5: the stop order stored by BackendServiceManager.calculateOrder
(consumed by stopAll and by the rollback of startAll) and the shutdown order
of BackendInitializer.shutdown are exactly the reverse of the computed
start/initialization order, for every registration. -/
theorem stopOrder_reverse_startOrder (g : Graph) :
    (∀ start stop, calculateOrders g = .ok (start, stop) → stop = start.reverse) ∧
    (∀ order, shutdownOrder order = order.reverse) := by
  constructor
  · intro start stop h
    unfold calculateOrders at h
    cases hres : calculateOrder g with
    | error e =>
      rw [hres] at h
      cases h
    | ok order =>
      rw [hres] at h
      cases h
      rfl
  · intro order
    rfl

/-- Claim C5 witness: the reverse relation observed on a concrete
three-service registration. -/
theorem stopOrder_reverse_startOrder_witness :
    ["db", "eventBus", "logger"] = ["logger", "eventBus", "db"].reverse :=
  (stopOrder_reverse_startOrder witnessAcyclicGraph).1
    ["logger", "eventBus", "db"] ["db", "eventBus", "logger"] (by decide)

/-- ServiceConfig (backend-service-manager.ts lines 52-59).  The numeric
fields are JavaScript numbers; only comparisons against zero and against the
restart counter matter to the embedded code. -/
structure ServiceConfig where
  startupTimeout : Int
  shutdownTimeout : Int
  healthCheckInterval : Int
  maxRestartAttempts : Nat
  restartDelay : Int
  enableAutoRestart : Bool
deriving DecidableEq, Repr

/-- DEFAULT_SERVICE_CONFIG (backend-service-manager.ts lines 551-558). -/
def DEFAULT_SERVICE_CONFIG : ServiceConfig :=
  { startupTimeout := 30000
    shutdownTimeout := 15000
    healthCheckInterval := 10000
    maxRestartAttempts := 3
    restartDelay := 2000
    enableAutoRestart := true }

/-- Static description of one managed service: the metadata of
IBackendService plus the outcome of the abstract doStart/doStop/doHealthCheck
implementations a subclass supplies.  startOk/stopOk abstract whether the
hooks, the implementation and the timeout race succeed; health = none
abstracts a doHealthCheck that throws, health = some b one that returns b. -/
structure Svc where
  name : String
  dependencies : List String
  isRequired : Bool
  startOk : Bool
  stopOk : Bool
  health : Option Bool
deriving DecidableEq, Repr

/-- Mutable runtime fields of BaseBackendService relevant to the claims:
this.state, the restart and error counters of this.metrics, and whether the
health-check interval timer is currently installed. -/
structure SvcState where
  state : ServiceState
  restartCount : Nat
  errorCount : Nat
  healthChecksActive : Bool
deriving DecidableEq, Repr

/-- Runtime state of a freshly constructed service object. -/
def initSvcState : SvcState :=
  { state := .stopped, restartCount := 0, errorCount := 0, healthChecksActive := false }

/-- BaseBackendService.start (lines 91-158).  Returns the result (the thrown
error, if any), the updated runtime state, and the trace of values assigned
to this.state in assignment order.  Already running: warn and return.
Already starting: throw.  Otherwise assign Starting, run the hooks and
implementation (outcome startOk), then either assign Running and install the
health-check timer (startHealthChecks is a no-op for a non-positive
interval), or assign Error, bump the error counter and throw
ServiceStartupError. -/
def svcStart (cfg : ServiceConfig) (svc : Svc) (st : SvcState) :
    Except CoreError Unit × SvcState × List ServiceState :=
  if st.state = .running then
    (.ok (), st, [])
  else if st.state = .starting then
    (.error (.serviceStartupError ("Service " ++ svc.name ++ " is already starting")), st, [])
  else if svc.startOk then
    (.ok (),
      { st with
        state := .running
        healthChecksActive := decide (0 < cfg.healthCheckInterval) || st.healthChecksActive },
      [.starting, .running])
  else
    (.error (.serviceStartupError ("Failed to start service " ++ svc.name)),
      { st with state := .error, errorCount := st.errorCount + 1 },
      [.starting, .error])

/-- BaseBackendService.stop (lines 160-216), symmetric to start: already
stopped warns and returns, already stopping throws, otherwise assign
Stopping, clear the health-check timer, run the implementation (outcome
stopOk) and either assign Stopped or assign Error and throw
ServiceShutdownError. -/
def svcStop (cfg : ServiceConfig) (svc : Svc) (st : SvcState) :
    Except CoreError Unit × SvcState × List ServiceState :=
  if st.state = .stopped then
    (.ok (), st, [])
  else if st.state = .stopping then
    (.error (.serviceShutdownError ("Service " ++ svc.name ++ " is already stopping")), st, [])
  else if svc.stopOk then
    (.ok (), { st with state := .stopped, healthChecksActive := false },
      [.stopping, .stopped])
  else
    (.error (.serviceShutdownError ("Failed to stop service " ++ svc.name)),
      { st with state := .error, errorCount := st.errorCount + 1, healthChecksActive := false },
      [.stopping, .error])

/-- BaseBackendService.restart (lines 218-236): stop, wait restartDelay,
start; the restart counter is incremented only after both succeed; any
failure is rethrown as a generic ServiceError and aborts the sequence at the
point it occurred. -/
def svcRestart (cfg : ServiceConfig) (svc : Svc) (st : SvcState) :
    Except CoreError Unit × SvcState × List ServiceState :=
  match svcStop cfg svc st with
  | (.error _, st₁, tr₁) =>
    (.error (.serviceError ("Failed to restart service " ++ svc.name)), st₁, tr₁)
  | (.ok _, st₁, tr₁) =>
    match svcStart cfg svc st₁ with
    | (.error _, st₂, tr₂) =>
      (.error (.serviceError ("Failed to restart service " ++ svc.name)), st₂, tr₁ ++ tr₂)
    | (.ok _, st₂, tr₂) =>
      (.ok (), { st₂ with restartCount := st₂.restartCount + 1 }, tr₁ ++ tr₂)

/-- BaseBackendService.healthCheck (lines 252-268): false unless the state
is Running, without invoking the supplied predicate; a throwing predicate is
caught and reported as false.  The second component records whether
doHealthCheck was invoked. -/
def svcHealthCheck (svc : Svc) (state : ServiceState) : Bool × Bool :=
  if state ≠ .running then
    (false, false)
  else
    match svc.health with
    | none => (false, true)
    | some b => (b, true)

/-- Outcome of one health-check interval callback. -/
structure TickOut where
  st : SvcState
  trace : List ServiceState
  restartInvoked : Bool
  failedEmitted : Bool
deriving DecidableEq, Repr

/-- Body of the callback installed by startHealthChecks (lines 285-317):
run healthCheck; when unhealthy and auto-restart is enabled, invoke
restart() if the restart count is below maxRestartAttempts (an error thrown
by the restart is caught and logged by the surrounding try), otherwise
force the state to Error and emit a service:failed event. -/
def svcTick (cfg : ServiceConfig) (svc : Svc) (st : SvcState) : TickOut :=
  let healthy := (svcHealthCheck svc st.state).1
  if !healthy && cfg.enableAutoRestart then
    if st.restartCount < cfg.maxRestartAttempts then
      match svcRestart cfg svc st with
      | (_, st₁, tr₁) => ⟨st₁, tr₁, true, false⟩
    else
      ⟨{ st with state := .error }, [.error], false, true⟩
  else
    ⟨st, [], false, false⟩

/-- Iterated health-check ticks: the final runtime state and how many of the
ticks invoked restart(). -/
def svcTicks (cfg : ServiceConfig) (svc : Svc) : Nat → SvcState → SvcState × Nat
  | 0, st => (st, 0)
  | n + 1, st =>
    let o := svcTick cfg svc st
    let (st₁, k) := svcTicks cfg svc n o.st
    (st₁, (if o.restartInvoked then 1 else 0) + k)

/-- Externally observable operations on one service object. -/
inductive SvcOp where
  | start
  | stop
  | restart
  | tick
deriving DecidableEq, Repr

/-- Application of one operation, yielding the new runtime state and the
trace of state assignments.  A tick can only fire while the health-check
interval timer is installed. -/
def applyOp (cfg : ServiceConfig) (svc : Svc) : SvcOp → SvcState → SvcState × List ServiceState
  | .start, st =>
    match svcStart cfg svc st with
    | (_, st₁, tr) => (st₁, tr)
  | .stop, st =>
    match svcStop cfg svc st with
    | (_, st₁, tr) => (st₁, tr)
  | .restart, st =>
    match svcRestart cfg svc st with
    | (_, st₁, tr) => (st₁, tr)
  | .tick, st =>
    if st.healthChecksActive then
      match svcTick cfg svc st with
      | o => (o.st, o.trace)
    else
      (st, [])

/-- Observed run of a sequence of operations from a given runtime state,
concatenating the state-assignment traces. -/
def runOps (cfg : ServiceConfig) (svc : Svc) : List SvcOp → SvcState → SvcState × List ServiceState
  | [], st => (st, [])
  | op :: ops, st =>
    match applyOp cfg svc op st with
    | (st₁, tr₁) =>
      match runOps cfg svc ops st₁ with
      | (st₂, tr₂) => (st₂, tr₁ ++ tr₂)

/-- Claim C6 (amended): start() is a no-op (the source additionally logs a
warning) when the service is already Running, and raises a
ServiceStartupError when the service is already Starting; in every other
state — including Stopping, which the claim said is rejected — it proceeds
by transitioning to Starting. -/
theorem svcStart_state_guards (cfg : ServiceConfig) (svc : Svc) (st : SvcState) :
    (st.state = .running → svcStart cfg svc st = (.ok (), st, [])) ∧
    (st.state = .starting →
      svcStart cfg svc st =
        (.error (.serviceStartupError ("Service " ++ svc.name ++ " is already starting")),
          st, [])) ∧
    (st.state ≠ .running → st.state ≠ .starting →
      (svcStart cfg svc st).2.2.head? = some .starting) := by
  refine ⟨?_, ?_, ?_⟩
  · intro h
    simp [svcStart, h]
  · intro h
    have : st.state ≠ .running := by rw [h]; intro hc; cases hc
    simp [svcStart, h, this]
  · intro h₁ h₂
    by_cases hok : svc.startOk <;> simp [svcStart, h₁, h₂, hok]

/-- Service used as a concrete probe: every abstract outcome succeeds. -/
def probeSvc : Svc :=
  { name := "svc", dependencies := [], isRequired := true,
    startOk := true, stopOk := true, health := some true }

/-- Runtime state with the state field at Stopping. -/
def stoppingState : SvcState :=
  { state := .stopping, restartCount := 0, errorCount := 0, healthChecksActive := false }

/-- Claim C6 counterexample: calling start() on a service whose state is
Stopping does not raise — the call proceeds through Starting and reaches
Running — contradicting the claim that start() raises a startup error when
the service is already stopping (the source only guards against Running and
Starting). -/
theorem svcStart_stopping_counterexample :
    (svcStart DEFAULT_SERVICE_CONFIG probeSvc stoppingState).1 = .ok () ∧
      (svcStart DEFAULT_SERVICE_CONFIG probeSvc stoppingState).2.1.state = .running ∧
      (svcStart DEFAULT_SERVICE_CONFIG probeSvc stoppingState).2.2 =
        [ServiceState.starting, ServiceState.running] := by
  refine ⟨?_, ?_, ?_⟩ <;> decide

/-- Runtime state with the state field at Running and the timer installed. -/
def runningActiveState : SvcState :=
  { state := .running, restartCount := 0, errorCount := 0, healthChecksActive := true }

/-- Runtime state with the state field at Starting. -/
def startingState : SvcState :=
  { state := .starting, restartCount := 0, errorCount := 0, healthChecksActive := false }

/-- Claim C6 witness: the amended guards observed at concrete states. -/
theorem svcStart_state_guards_witness :
    svcStart DEFAULT_SERVICE_CONFIG probeSvc runningActiveState =
      (.ok (), runningActiveState, []) ∧
    svcStart DEFAULT_SERVICE_CONFIG probeSvc startingState =
      (.error (.serviceStartupError "Service svc is already starting"), startingState, []) ∧
    (svcStart DEFAULT_SERVICE_CONFIG probeSvc initSvcState).2.2.head? =
      some ServiceState.starting := by
  refine ⟨?_, ?_, ?_⟩
  · exact (svcStart_state_guards DEFAULT_SERVICE_CONFIG probeSvc runningActiveState).1
      (by decide)
  · exact (svcStart_state_guards DEFAULT_SERVICE_CONFIG probeSvc startingState).2.1
      (by decide)
  · exact (svcStart_state_guards DEFAULT_SERVICE_CONFIG probeSvc initSvcState).2.2
      (by decide) (by decide)

/-- Claim C10: healthCheck() returns false, without invoking the supplied
predicate, whenever the state is not Running (Starting, Stopping, Stopped,
Error and Maintenance included), and a predicate that throws makes it
return false instead of propagating (the total return type of the embedding
is the absence of propagation; the thrown error is caught and logged). -/
theorem healthCheck_guards (svc : Svc) (s : ServiceState) :
    (s ≠ .running → svcHealthCheck svc s = (false, false)) ∧
    (svc.health = none → (svcHealthCheck svc s).1 = false) := by
  constructor
  · intro h
    simp [svcHealthCheck, h]
  · intro h
    by_cases hs : s = .running
    · simp [svcHealthCheck, hs, h]
    · simp [svcHealthCheck, hs]

/-- Service whose doHealthCheck implementation throws. -/
def throwingHealthSvc : Svc :=
  { name := "svc", dependencies := [], isRequired := true,
    startOk := true, stopOk := true, health := none }

/-- Claim C10 witness: the guards observed at a non-Running state and at a
throwing predicate in the Running state. -/
theorem healthCheck_guards_witness :
    svcHealthCheck probeSvc .maintenance = (false, false) ∧
      (svcHealthCheck throwingHealthSvc .running).1 = false := by
  constructor
  · exact (healthCheck_guards probeSvc .maintenance).1 (by decide)
  · exact (healthCheck_guards throwingHealthSvc .running).2 rfl

/-- Restart counters never decrease across a tick: they are incremented by a
successful restart and untouched everywhere else. -/
theorem svcTick_count_mono (cfg : ServiceConfig) (svc : Svc) (st : SvcState) :
    st.restartCount ≤ (svcTick cfg svc st).st.restartCount := by
  unfold svcTick
  by_cases hh : (!(svcHealthCheck svc st.state).1 && cfg.enableAutoRestart) = true
  · rw [if_pos hh]
    by_cases hc : st.restartCount < cfg.maxRestartAttempts
    · rw [if_pos hc]
      unfold svcRestart svcStop svcStart
      rcases st with ⟨s, rc, ec, hca⟩
      cases s <;> by_cases h1 : svc.stopOk <;> by_cases h2 : svc.startOk <;>
        simp [h1, h2] <;> omega
    · rw [if_neg hc]
  · rw [if_neg hh]

/-- Claim C3: with auto-restart enabled, health-check-triggered restarts are
capped by maxRestartAttempts: (1) a tick invokes restart() only when the
check failed, auto-restart is on and the restart count is still below the
cap; (2) a failing check at or above the cap does not restart — it forces
the state to Error and emits a service:failed event; (3) the restart count
never exceeds the cap under ticking; (4) from the cap on, auto-restart is
disabled for the node: no later tick ever invokes restart() again. -/
theorem healthTick_restart_cap (cfg : ServiceConfig) (svc : Svc) (st : SvcState) :
    ((svcTick cfg svc st).restartInvoked = true →
      st.restartCount < cfg.maxRestartAttempts ∧ cfg.enableAutoRestart = true ∧
        (svcHealthCheck svc st.state).1 = false) ∧
    ((svcHealthCheck svc st.state).1 = false → cfg.enableAutoRestart = true →
      cfg.maxRestartAttempts ≤ st.restartCount →
      svcTick cfg svc st = ⟨{ st with state := .error }, [.error], false, true⟩) ∧
    (st.restartCount ≤ cfg.maxRestartAttempts →
      ∀ n, ((svcTicks cfg svc n st).1).restartCount ≤ cfg.maxRestartAttempts) ∧
    (cfg.maxRestartAttempts ≤ st.restartCount →
      ∀ n, (svcTicks cfg svc n st).2 = 0) := by
  have hstep : ∀ t : SvcState, t.restartCount ≤ cfg.maxRestartAttempts →
      ((svcTick cfg svc t).st).restartCount ≤ cfg.maxRestartAttempts := by
    intro t ht
    unfold svcTick
    by_cases hh : (!(svcHealthCheck svc t.state).1 && cfg.enableAutoRestart) = true
    · rw [if_pos hh]
      by_cases hc : t.restartCount < cfg.maxRestartAttempts
      · rw [if_pos hc]
        unfold svcRestart svcStop svcStart
        rcases t with ⟨s, rc, ec, hca⟩
        simp only at hc
        cases s <;> by_cases h1 : svc.stopOk <;> by_cases h2 : svc.startOk <;>
          simp [h1, h2] <;> omega
      · rw [if_neg hc]
        exact ht
    · rw [if_neg hh]
      exact ht
  refine ⟨?_, ?_, ?_, ?_⟩
  · intro h
    unfold svcTick at h
    by_cases hh : (!(svcHealthCheck svc st.state).1 && cfg.enableAutoRestart) = true
    · rw [if_pos hh] at h
      obtain ⟨hhc, har⟩ := Bool.and_eq_true_iff.mp hh
      by_cases hc : st.restartCount < cfg.maxRestartAttempts
      · refine ⟨hc, har, ?_⟩
        simpa using hhc
      · rw [if_neg hc] at h
        cases h
    · rw [if_neg hh] at h
      cases h
  · intro hfail har hcap
    unfold svcTick
    rw [if_pos (by rw [hfail, har]; rfl), if_neg (Nat.not_lt.mpr hcap)]
  · intro hle n
    induction n generalizing st with
    | zero => exact hle
    | succ n ih =>
      simp only [svcTicks]
      exact ih (svcTick cfg svc st).st (hstep st hle)
  · intro hcap n
    induction n generalizing st with
    | zero => rfl
    | succ n ih =>
      simp only [svcTicks]
      have hnr : (svcTick cfg svc st).restartInvoked = false := by
        unfold svcTick
        by_cases hh : (!(svcHealthCheck svc st.state).1 && cfg.enableAutoRestart) = true
        · rw [if_pos hh, if_neg (Nat.not_lt.mpr hcap)]
        · rw [if_neg hh]
      have hcap₁ : cfg.maxRestartAttempts ≤ ((svcTick cfg svc st).st).restartCount :=
        Nat.le_trans hcap (svcTick_count_mono cfg svc st)
      rw [hnr]
      simp [ih (svcTick cfg svc st).st hcap₁]

/-- Adjacent-transition table actually realized by the lifecycle code: the
chain Stopped→Starting→Running→Stopping→Stopped, entry into Error from
Starting, Stopping or Running, recovery out of Error into Starting (a
retried start) or into Stopping (a stop or restart of an errored node), and
staying in place (re-assigning the current state is not a transition). -/
def codeAllowed : ServiceState → ServiceState → Bool
  | .stopped, .starting => true
  | .starting, .running => true
  | .starting, .error => true
  | .running, .stopping => true
  | .running, .error => true
  | .stopping, .stopped => true
  | .stopping, .error => true
  | .error, .starting => true
  | .error, .stopping => true
  | a, b => a == b

/-- Adjacent-transition table asserted by claim C4: the chain, Error entered
only from Starting, Stopping or Running, Maintenance entered only from
Running, and staying in place. -/
def claimAllowed : ServiceState → ServiceState → Bool
  | .stopped, .starting => true
  | .starting, .running => true
  | .starting, .error => true
  | .running, .stopping => true
  | .running, .error => true
  | .running, .maintenance => true
  | .stopping, .stopped => true
  | .stopping, .error => true
  | a, b => a == b

/-- Every adjacent pair of an assignment trace, starting from a given state,
is allowed by the table. -/
def chainOK (al : ServiceState → ServiceState → Bool) :
    ServiceState → List ServiceState → Bool
  | _, [] => true
  | s, x :: xs => al s x && chainOK al x xs

/-- Final state of a trace started at the given state. -/
def lastOf : ServiceState → List ServiceState → ServiceState
  | s, [] => s
  | _, x :: xs => lastOf x xs

theorem chainOK_append (al : ServiceState → ServiceState → Bool)
    (s : ServiceState) (t₁ t₂ : List ServiceState) :
    chainOK al s (t₁ ++ t₂) = (chainOK al s t₁ && chainOK al (lastOf s t₁) t₂) := by
  induction t₁ generalizing s with
  | nil => simp [chainOK, lastOf]
  | cons x xs ih => simp [chainOK, lastOf, ih, Bool.and_assoc]

theorem lastOf_append (s : ServiceState) (t₁ t₂ : List ServiceState) :
    lastOf s (t₁ ++ t₂) = lastOf (lastOf s t₁) t₂ := by
  induction t₁ generalizing s with
  | nil => rfl
  | cons x xs ih => simp [lastOf, ih]

/-- States a service object can rest in between operations: Stopped, Running
or Error, and while Stopped the health-check timer is never installed (start
installs it only on reaching Running, and stop clears it on entering
Stopping). -/
def GoodState (st : SvcState) : Prop :=
  (st.state = .stopped ∨ st.state = .running ∨ st.state = .error) ∧
  (st.state = .stopped → st.healthChecksActive = false)

theorem initSvcState_good : GoodState initSvcState := by
  constructor
  · exact Or.inl rfl
  · intro _
    rfl

theorem svcStart_trace (cfg : ServiceConfig) (svc : Svc) (st : SvcState)
    (h : GoodState st) :
    chainOK codeAllowed st.state (svcStart cfg svc st).2.2 = true ∧
      lastOf st.state (svcStart cfg svc st).2.2 = (svcStart cfg svc st).2.1.state ∧
      GoodState (svcStart cfg svc st).2.1 := by
  obtain ⟨hs, hact⟩ := h
  rcases st with ⟨s, rc, ec, hca⟩
  simp only at hs hact
  rcases hs with rfl | rfl | rfl <;> by_cases hok : svc.startOk <;>
    simp [svcStart, hok, chainOK, lastOf, codeAllowed, GoodState]

theorem svcStop_trace (cfg : ServiceConfig) (svc : Svc) (st : SvcState)
    (h : GoodState st) :
    chainOK codeAllowed st.state (svcStop cfg svc st).2.2 = true ∧
      lastOf st.state (svcStop cfg svc st).2.2 = (svcStop cfg svc st).2.1.state ∧
      GoodState (svcStop cfg svc st).2.1 := by
  obtain ⟨hs, hact⟩ := h
  rcases st with ⟨s, rc, ec, hca⟩
  simp only at hs hact
  rcases hs with rfl | rfl | rfl <;> by_cases hok : svc.stopOk <;>
    simp [svcStop, hok, chainOK, lastOf, codeAllowed, GoodState, hact]

theorem svcRestart_trace (cfg : ServiceConfig) (svc : Svc) (st : SvcState)
    (h : GoodState st) :
    chainOK codeAllowed st.state (svcRestart cfg svc st).2.2 = true ∧
      lastOf st.state (svcRestart cfg svc st).2.2 = (svcRestart cfg svc st).2.1.state ∧
      GoodState (svcRestart cfg svc st).2.1 := by
  obtain ⟨hc₁, hl₁, hg₁⟩ := svcStop_trace cfg svc st h
  cases hstop : svcStop cfg svc st with
  | mk res rest =>
  cases rest with
  | mk st₁ tr₁ =>
  rw [hstop] at hc₁ hl₁ hg₁
  simp only at hc₁ hl₁ hg₁
  cases res with
  | error e =>
    simp only [svcRestart, hstop]
    exact ⟨hc₁, hl₁, hg₁⟩
  | ok u =>
    obtain ⟨hc₂, hl₂, hg₂⟩ := svcStart_trace cfg svc st₁ hg₁
    cases hstart : svcStart cfg svc st₁ with
    | mk res₂ rest₂ =>
    cases rest₂ with
    | mk st₂ tr₂ =>
    rw [hstart] at hc₂ hl₂ hg₂
    simp only at hc₂ hl₂ hg₂
    cases res₂ with
    | error e =>
      simp only [svcRestart, hstop, hstart]
      refine ⟨?_, ?_, hg₂⟩
      · rw [chainOK_append, hc₁, hl₁, hc₂]
        rfl
      · rw [lastOf_append, hl₁, hl₂]
    | ok u₂ =>
      simp only [svcRestart, hstop, hstart]
      refine ⟨?_, ?_, ?_⟩
      · rw [chainOK_append, hc₁, hl₁, hc₂]
        rfl
      · rw [lastOf_append, hl₁, hl₂]
      · exact ⟨hg₂.1, hg₂.2⟩

theorem svcTick_trace (cfg : ServiceConfig) (svc : Svc) (st : SvcState)
    (h : GoodState st) (hne : st.state = .running ∨ st.state = .error) :
    chainOK codeAllowed st.state (svcTick cfg svc st).trace = true ∧
      lastOf st.state (svcTick cfg svc st).trace = (svcTick cfg svc st).st.state ∧
      GoodState (svcTick cfg svc st).st := by
  unfold svcTick
  by_cases hh : (!(svcHealthCheck svc st.state).1 && cfg.enableAutoRestart) = true
  · rw [if_pos hh]
    by_cases hcnt : st.restartCount < cfg.maxRestartAttempts
    · rw [if_pos hcnt]
      obtain ⟨hc, hl, hg⟩ := svcRestart_trace cfg svc st h
      cases hres : svcRestart cfg svc st with
      | mk res rest =>
        rw [hres] at hc hl hg
        cases rest with
        | mk st₁ tr₁ => exact ⟨hc, hl, hg⟩
    · rw [if_neg hcnt]
      rcases hne with hrun | herr
      · refine ⟨?_, ?_, ?_⟩
        · simp [chainOK, hrun, codeAllowed]
        · rfl
        · exact ⟨Or.inr (Or.inr rfl), fun hc => by cases hc⟩
      · refine ⟨?_, ?_, ?_⟩
        · simp [chainOK, herr, codeAllowed]
        · rfl
        · exact ⟨Or.inr (Or.inr rfl), fun hc => by cases hc⟩
  · rw [if_neg hh]
    exact ⟨rfl, rfl, h⟩

theorem applyOp_trace (cfg : ServiceConfig) (svc : Svc) (op : SvcOp) (st : SvcState)
    (h : GoodState st) :
    chainOK codeAllowed st.state (applyOp cfg svc op st).2 = true ∧
      lastOf st.state (applyOp cfg svc op st).2 = (applyOp cfg svc op st).1.state ∧
      GoodState (applyOp cfg svc op st).1 := by
  cases op with
  | start =>
    obtain ⟨hc, hl, hg⟩ := svcStart_trace cfg svc st h
    cases hres : svcStart cfg svc st with
    | mk res rest =>
    cases rest with
    | mk st₁ tr₁ =>
    rw [hres] at hc hl hg
    simp only at hc hl hg
    simp only [applyOp, hres]
    exact ⟨hc, hl, hg⟩
  | stop =>
    obtain ⟨hc, hl, hg⟩ := svcStop_trace cfg svc st h
    cases hres : svcStop cfg svc st with
    | mk res rest =>
    cases rest with
    | mk st₁ tr₁ =>
    rw [hres] at hc hl hg
    simp only at hc hl hg
    simp only [applyOp, hres]
    exact ⟨hc, hl, hg⟩
  | restart =>
    obtain ⟨hc, hl, hg⟩ := svcRestart_trace cfg svc st h
    cases hres : svcRestart cfg svc st with
    | mk res rest =>
    cases rest with
    | mk st₁ tr₁ =>
    rw [hres] at hc hl hg
    simp only at hc hl hg
    simp only [applyOp, hres]
    exact ⟨hc, hl, hg⟩
  | tick =>
    by_cases hca : st.healthChecksActive
    · have hne : st.state = .running ∨ st.state = .error := by
        rcases h.1 with hst | hst | hst
        · rw [h.2 hst] at hca
          cases hca
        · exact Or.inl hst
        · exact Or.inr hst
      obtain ⟨hc, hl, hg⟩ := svcTick_trace cfg svc st h hne
      simp only [applyOp, if_pos hca]
      exact ⟨hc, hl, hg⟩
    · simp only [applyOp, if_neg hca]
      exact ⟨rfl, rfl, h⟩

theorem runOps_trace (cfg : ServiceConfig) (svc : Svc) :
    ∀ ops st, GoodState st →
      chainOK codeAllowed st.state (runOps cfg svc ops st).2 = true ∧
        GoodState (runOps cfg svc ops st).1 := by
  intro ops
  induction ops with
  | nil =>
    intro st h
    exact ⟨rfl, h⟩
  | cons op ops ih =>
    intro st h
    obtain ⟨hc, hl, hg⟩ := applyOp_trace cfg svc op st h
    cases hap : applyOp cfg svc op st with
    | mk st₁ tr₁ =>
    rw [hap] at hc hl hg
    simp only at hc hl hg
    obtain ⟨hc₂, hg₂⟩ := ih st₁ hg
    cases hrun : runOps cfg svc ops st₁ with
    | mk st₂ tr₂ =>
    rw [hrun] at hc₂ hg₂
    simp only at hc₂ hg₂
    simp only [runOps, hap, hrun]
    refine ⟨?_, hg₂⟩
    rw [chainOK_append, hc, hl, hc₂]
    rfl

/-- Claim C4 (amended): every observed state-assignment trace produced by
any sequence of start(), stop(), restart() and health-monitoring ticks on a
fresh service follows the edge table of the code: the chain
Stopped→Starting→Running→Stopping→Stopped with no state skipped, Error
entered only from Starting, Stopping or Running, Maintenance never entered,
and — beyond the claim's original list — recovery transitions out of Error
into Starting (a retried start) or Stopping (stopping or restarting an
errored node).  Every code edge is either an edge the claim allows or one of
the two recovery edges out of Error. -/
theorem lifecycle_transitions (cfg : ServiceConfig) (svc : Svc) (ops : List SvcOp) :
    chainOK codeAllowed .stopped (runOps cfg svc ops initSvcState).2 = true ∧
      ∀ a b, codeAllowed a b = true → claimAllowed a b = true ∨
        (a = .error ∧ (b = .starting ∨ b = .stopping)) := by
  constructor
  · exact (runOps_trace cfg svc ops initSvcState initSvcState_good).1
  · decide

/-- Service whose doStart implementation fails. -/
def failingStartSvc : Svc :=
  { name := "svc", dependencies := [], isRequired := true,
    startOk := false, stopOk := true, health := some true }

/-- Claim C4 counterexample: a failed start leaves the node in Error, and a
retried start then assigns Error→Starting — a transition outside the paths
the claim allows, so the claim as stated is false on the code. -/
theorem lifecycle_transitions_claim_counterexample :
    chainOK claimAllowed .stopped
        (runOps DEFAULT_SERVICE_CONFIG failingStartSvc [.start, .start] initSvcState).2 =
      false ∧
      (runOps DEFAULT_SERVICE_CONFIG failingStartSvc [.start, .start] initSvcState).2 =
        [.starting, .error, .starting, .error] := by
  constructor
  · decide
  · decide

/-- Registry lookup this.services.get(name). -/
def lookupSvc (svcs : List Svc) (n : String) : Option Svc :=
  svcs.find? (fun s => s.name == n)

/-- Runtime states of the registered service objects, keyed by name (each
service object owns its state; the association list passes them
explicitly). -/
abbrev SvcStates := List (String × SvcState)

/-- Runtime state of the service object named n. -/
def getSt (sts : SvcStates) (n : String) : SvcState :=
  ((sts.find? (fun p => p.1 == n)).map Prod.snd).getD initSvcState

/-- Update of the runtime state of the service object named n. -/
def setSt : SvcStates → String → SvcState → SvcStates
  | [], n, s => [(n, s)]
  | (m, t) :: rest, n, s =>
    if m = n then (n, s) :: rest else (m, t) :: setSt rest n s

/-- States of a freshly registered set of services. -/
def initStates (svcs : List Svc) : SvcStates :=
  svcs.map (fun s => (s.name, initSvcState))

/-- Dependency graph built from registration by updateDependencyGraph. -/
def svcGraph (svcs : List Svc) : Graph :=
  svcs.map (fun s => (s.name, s.dependencies))

/-- Runtime state of a service started once from fresh (Running, counters
zero, health timer installed when the interval is positive). -/
def startedSvcState (cfg : ServiceConfig) : SvcState :=
  { state := .running, restartCount := 0, errorCount := 0,
    healthChecksActive := decide (0 < cfg.healthCheckInterval) }

/-- Runtime state of a fresh service whose start failed (Error, one error
counted). -/
def failedStartSvcState : SvcState :=
  { state := .error, restartCount := 0, errorCount := 1, healthChecksActive := false }

/-- Observable actions of startAll and its rollback, in execution order. -/
inductive MgrEv where
  | started (n : String)
  | startFailedLogged (n : String)
  | rollbackStopped (n : String)
  | rollbackStopFailedLogged (n : String)
deriving DecidableEq, Repr

/-- Rollback action recorded for one service, by its stop outcome. -/
def stopEvFor (svcs : List Svc) (n : String) : MgrEv :=
  match lookupSvc svcs n with
  | some svc => if svc.stopOk then .rollbackStopped n else .rollbackStopFailedLogged n
  | none => .rollbackStopped n

/-- State a running service is left in by the rollback stop. -/
def stoppedStateFor (svcs : List Svc) (n : String) : ServiceState :=
  match lookupSvc svcs n with
  | some svc => if svc.stopOk then .stopped else .error
  | none => .stopped

/-- Loop of BackendServiceManager.stopStartedServices (lines 522-534): each
service of the given list that exists and is currently Running is stopped;
a stop failure is logged (the loop continues), never re-raised. -/
def rollbackLoop (cfg : ServiceConfig) (svcs : List Svc) :
    List String → SvcStates → SvcStates × List MgrEv
  | [], sts => (sts, [])
  | n :: ns, sts =>
    match lookupSvc svcs n with
    | none => rollbackLoop cfg svcs ns sts
    | some svc =>
      if (getSt sts n).state = .running then
        match svcStop cfg svc (getSt sts n) with
        | (.ok _, st₁, _) =>
          match rollbackLoop cfg svcs ns (setSt sts n st₁) with
          | (sts₂, evs) => (sts₂, .rollbackStopped n :: evs)
        | (.error _, st₁, _) =>
          match rollbackLoop cfg svcs ns (setSt sts n st₁) with
          | (sts₂, evs) => (sts₂, .rollbackStopFailedLogged n :: evs)
      else
        rollbackLoop cfg svcs ns sts

/-- BackendServiceManager.stopStartedServices (lines 515-535): the services
strictly before the failed one in the start order are stopped in reverse
order.  indexOf of an absent name is -1 and the method returns at once,
embedded here by the membership guard. -/
def stopStartedServices (cfg : ServiceConfig) (svcs : List Svc)
    (startOrder : List String) (failed : String) (sts : SvcStates) :
    SvcStates × List MgrEv :=
  if failed ∈ startOrder then
    rollbackLoop cfg svcs ((startOrder.take (posIn startOrder failed)).reverse) sts
  else
    (sts, [])

/-- Loop of BackendServiceManager.startAll (lines 377-395): start each
registered service of the order in turn; when a start throws, a required
service triggers the rollback and a ServiceError aborting the loop, a
non-required service only logs and iteration continues. -/
def startAllLoop (cfg : ServiceConfig) (svcs : List Svc) (startOrder : List String) :
    List String → SvcStates → Except CoreError Unit × SvcStates × List MgrEv
  | [], sts => (.ok (), sts, [])
  | n :: ns, sts =>
    match lookupSvc svcs n with
    | none => startAllLoop cfg svcs startOrder ns sts
    | some svc =>
      match svcStart cfg svc (getSt sts n) with
      | (.ok _, st₁, _) =>
        match startAllLoop cfg svcs startOrder ns (setSt sts n st₁) with
        | (r, sts₂, evs) => (r, sts₂, .started n :: evs)
      | (.error _, st₁, _) =>
        if svc.isRequired then
          match stopStartedServices cfg svcs startOrder n (setSt sts n st₁) with
          | (sts₂, evs) =>
            (.error (.serviceError ("Required service " ++ n ++ " failed to start")),
              sts₂, .startFailedLogged n :: evs)
        else
          match startAllLoop cfg svcs startOrder ns (setSt sts n st₁) with
          | (r, sts₂, evs) => (r, sts₂, .startFailedLogged n :: evs)

/-- BackendServiceManager.startAll on a freshly registered set of services:
the start order was computed at registration time; the loop walks it. -/
def startAll (cfg : ServiceConfig) (svcs : List Svc) :
    Except CoreError (Except CoreError Unit × SvcStates × List MgrEv) :=
  match calculateOrder (svcGraph svcs) with
  | .error e => .error e
  | .ok order => .ok (startAllLoop cfg svcs order order (initStates svcs))

theorem getSt_cons (m : String) (t : SvcState) (rest : SvcStates) (n : String) :
    getSt ((m, t) :: rest) n = if m = n then t else getSt rest n := by
  by_cases h : m = n
  · have hb : (m == n) = true := by simp [h]
    simp [getSt, List.find?, hb, h]
  · have hb : (m == n) = false := by simp [h]
    simp [getSt, List.find?, hb, h]

theorem lookupSvc_cons (svc : Svc) (rest : List Svc) (n : String) :
    lookupSvc (svc :: rest) n = if svc.name = n then some svc else lookupSvc rest n := by
  by_cases h : svc.name = n
  · have hb : (svc.name == n) = true := by simp [h]
    simp [lookupSvc, List.find?, hb, h]
  · have hb : (svc.name == n) = false := by simp [h]
    simp [lookupSvc, List.find?, hb, h]

theorem getSt_set_same (sts : SvcStates) (n : String) (s : SvcState) :
    getSt (setSt sts n s) n = s := by
  induction sts with
  | nil => simp [setSt, getSt_cons]
  | cons p rest ih =>
    cases p with
    | mk m t =>
      by_cases h : m = n
      · simp [setSt, h, getSt_cons]
      · simp [setSt, h, getSt_cons, ih]

theorem getSt_set_other (sts : SvcStates) {n m : String} (h : m ≠ n) (s : SvcState) :
    getSt (setSt sts n s) m = getSt sts m := by
  induction sts with
  | nil =>
    show getSt [(n, s)] m = getSt [] m
    rw [getSt_cons, if_neg (fun he => h he.symm)]
  | cons p rest ih =>
    cases p with
    | mk k t =>
      by_cases hk : k = n
      · subst hk
        have hset : setSt ((k, t) :: rest) k s = (k, s) :: rest := by
          simp [setSt]
        rw [hset, getSt_cons, getSt_cons, if_neg (fun he => h he.symm),
          if_neg (fun he => h he.symm)]
      · simp only [setSt, if_neg hk]
        rw [getSt_cons, getSt_cons, ih]

theorem getSt_initStates (svcs : List Svc) (n : String) :
    getSt (initStates svcs) n = initSvcState := by
  induction svcs with
  | nil => rfl
  | cons svc rest ih =>
    by_cases h : svc.name = n
    · simp [initStates, getSt_cons, h]
    · simp only [initStates, List.map_cons] at ih ⊢
      simp [getSt_cons, h, ih]

theorem lookupSvc_of_mem_names {svcs : List Svc} {n : String}
    (h : n ∈ names (svcGraph svcs)) : ∃ svc, lookupSvc svcs n = some svc := by
  induction svcs with
  | nil => cases h
  | cons svc rest ih =>
    by_cases hn : svc.name = n
    · exact ⟨svc, by simp [lookupSvc_cons, hn]⟩
    · have hmem : n ∈ names (svcGraph rest) := by
        simp only [svcGraph, names, List.map_cons, List.map_map] at h
        rcases List.mem_cons.mp h with he | hmem
        · exact absurd he.symm hn
        · simpa [svcGraph, names, List.map_map] using hmem
      obtain ⟨s, hs⟩ := ih hmem
      exact ⟨s, by simp [lookupSvc_cons, hn, hs]⟩

theorem svcStart_init_ok (cfg : ServiceConfig) {svc : Svc} (h : svc.startOk = true) :
    svcStart cfg svc initSvcState =
      (.ok (), startedSvcState cfg, [.starting, .running]) := by
  simp [svcStart, initSvcState, startedSvcState, h]

theorem svcStart_init_fail (cfg : ServiceConfig) {svc : Svc} (h : svc.startOk = false) :
    svcStart cfg svc initSvcState =
      (.error (.serviceStartupError ("Failed to start service " ++ svc.name)),
        failedStartSvcState, [.starting, .error]) := by
  simp [svcStart, initSvcState, failedStartSvcState, h]

/-- Processing a leading block of services that all exist and start
successfully: they are started in order, each emitting a started event, and
the loop continues with the rest of the order. -/
theorem startAllLoop_pre (cfg : ServiceConfig) (svcs : List Svc) (order : List String) :
    ∀ pre rest sts,
      (∀ n ∈ pre, ∃ svc, lookupSvc svcs n = some svc ∧ svc.startOk = true) →
      (∀ n ∈ pre, getSt sts n = initSvcState) →
      pre.Nodup →
      ∃ sts₁,
        startAllLoop cfg svcs order (pre ++ rest) sts =
          (match startAllLoop cfg svcs order rest sts₁ with
           | (r, sts₂, evs) => (r, sts₂, pre.map MgrEv.started ++ evs)) ∧
        (∀ n ∈ pre, getSt sts₁ n = startedSvcState cfg) ∧
        (∀ n, n ∉ pre → getSt sts₁ n = getSt sts n) := by
  intro pre
  induction pre with
  | nil =>
    intro rest sts _ _ _
    refine ⟨sts, ?_, ?_, ?_⟩
    · cases hres : startAllLoop cfg svcs order rest sts with
      | mk r p =>
        cases p with
        | mk sts₂ evs => simp [hres]
    · intro n hn
      cases hn
    · intro n _
      rfl
  | cons n pre ih =>
    intro rest sts hok hinit hnd
    obtain ⟨svc, hlk, hso⟩ := hok n (List.mem_cons_self n pre)
    have hstart := svcStart_init_ok cfg hso
    have hgn : getSt sts n = initSvcState := hinit n (List.mem_cons_self n pre)
    obtain ⟨hn_pre, hnd'⟩ := List.nodup_cons.mp hnd
    have hinit' : ∀ m ∈ pre, getSt (setSt sts n (startedSvcState cfg)) m = initSvcState := by
      intro m hm
      rw [getSt_set_other sts (fun (he : m = n) => hn_pre (he ▸ hm)) _]
      exact hinit m (List.mem_cons_of_mem n hm)
    obtain ⟨sts₁, heq, hstarted, hother⟩ :=
      ih rest (setSt sts n (startedSvcState cfg))
        (fun m hm => hok m (List.mem_cons_of_mem n hm)) hinit' hnd'
    refine ⟨sts₁, ?_, ?_, ?_⟩
    · have step : startAllLoop cfg svcs order (n :: (pre ++ rest)) sts =
          (match startAllLoop cfg svcs order (pre ++ rest) (setSt sts n (startedSvcState cfg)) with
           | (r, sts₂, evs) => (r, sts₂, MgrEv.started n :: evs)) := by
        simp only [startAllLoop, hlk, hgn, hstart]
      rw [List.cons_append, step, heq]
      rcases startAllLoop cfg svcs order rest sts₁ with ⟨r, sts₂, evs⟩
      simp
    · intro m hm
      rcases List.mem_cons.mp hm with rfl | hm
      · rw [hother m hn_pre, getSt_set_same]
      · exact hstarted m hm
    · intro m hm
      have hmn : m ≠ n := fun he => hm (he ▸ List.mem_cons_self n pre)
      rw [hother m (fun hc => hm (List.mem_cons_of_mem n hc)),
        getSt_set_other sts hmn _]

/-- Runtime state after a successful stop. -/
def stoppedOf (st : SvcState) : SvcState :=
  { st with state := .stopped, healthChecksActive := false }

/-- Runtime state after a failed stop. -/
def stopErrorOf (st : SvcState) : SvcState :=
  { st with state := .error, errorCount := st.errorCount + 1, healthChecksActive := false }

theorem svcStop_running (cfg : ServiceConfig) (svc : Svc) (st : SvcState)
    (hr : st.state = .running) :
    svcStop cfg svc st =
      (if svc.stopOk then
        (.ok (), stoppedOf st, [.stopping, .stopped])
      else
        (.error (.serviceShutdownError ("Failed to stop service " ++ svc.name)),
          stopErrorOf st, [.stopping, .error])) := by
  by_cases h : svc.stopOk <;> simp [svcStop, stoppedOf, stopErrorOf, hr, h]

/-- Rolling back a block of existing, currently Running services: every one
of them is stopped in the order given, with one event per service recording
whether its stop succeeded or was logged as failed; the loop always runs to
completion. -/
theorem rollbackLoop_running (cfg : ServiceConfig) (svcs : List Svc) :
    ∀ ns sts,
      (∀ n ∈ ns, ∃ svc, lookupSvc svcs n = some svc) →
      (∀ n ∈ ns, (getSt sts n).state = .running) →
      ns.Nodup →
      ∃ sts₂,
        rollbackLoop cfg svcs ns sts = (sts₂, ns.map (stopEvFor svcs)) ∧
        (∀ n ∈ ns, (getSt sts₂ n).state = stoppedStateFor svcs n) ∧
        (∀ n, n ∉ ns → getSt sts₂ n = getSt sts n) := by
  intro ns
  induction ns with
  | nil =>
    intro sts _ _ _
    refine ⟨sts, rfl, ?_, ?_⟩
    · intro n hn
      cases hn
    · intro n _
      rfl
  | cons n ns ih =>
    intro sts hex hrun hnd
    obtain ⟨svc, hlk⟩ := hex n (List.mem_cons_self n ns)
    have hr : (getSt sts n).state = .running := hrun n (List.mem_cons_self n ns)
    obtain ⟨hn_ns, hnd'⟩ := List.nodup_cons.mp hnd
    have hstop := svcStop_running cfg svc (getSt sts n) hr
    by_cases hok : svc.stopOk
    · rw [if_pos hok] at hstop
      have hrun' : ∀ m ∈ ns,
          (getSt (setSt sts n (stoppedOf (getSt sts n))) m).state = .running := by
        intro m hm
        rw [getSt_set_other sts (fun (he : m = n) => hn_ns (he ▸ hm)) _]
        exact hrun m (List.mem_cons_of_mem n hm)
      obtain ⟨sts₂, heq, hstates, hother⟩ :=
        ih (setSt sts n (stoppedOf (getSt sts n)))
          (fun m hm => hex m (List.mem_cons_of_mem n hm)) hrun' hnd'
      refine ⟨sts₂, ?_, ?_, ?_⟩
      · simp only [rollbackLoop, hlk, if_pos hr, hstop, heq]
        simp [stopEvFor, hlk, hok]
      · intro m hm
        rcases List.mem_cons.mp hm with rfl | hm
        · rw [hother m hn_ns, getSt_set_same]
          simp [stoppedStateFor, stoppedOf, hlk, hok]
        · exact hstates m hm
      · intro m hm
        have hmn : m ≠ n := fun he => hm (he ▸ List.mem_cons_self n ns)
        rw [hother m (fun hc => hm (List.mem_cons_of_mem n hc)),
          getSt_set_other sts hmn _]
    · rw [if_neg hok] at hstop
      have hrun' : ∀ m ∈ ns,
          (getSt (setSt sts n (stopErrorOf (getSt sts n))) m).state = .running := by
        intro m hm
        rw [getSt_set_other sts (fun (he : m = n) => hn_ns (he ▸ hm)) _]
        exact hrun m (List.mem_cons_of_mem n hm)
      obtain ⟨sts₂, heq, hstates, hother⟩ :=
        ih (setSt sts n (stopErrorOf (getSt sts n)))
          (fun m hm => hex m (List.mem_cons_of_mem n hm)) hrun' hnd'
      refine ⟨sts₂, ?_, ?_, ?_⟩
      · simp only [rollbackLoop, hlk, if_pos hr, hstop, heq]
        simp [stopEvFor, hlk, hok]
      · intro m hm
        rcases List.mem_cons.mp hm with rfl | hm
        · rw [hother m hn_ns, getSt_set_same]
          simp [stoppedStateFor, stopErrorOf, hlk, hok]
        · exact hstates m hm
      · intro m hm
        have hmn : m ≠ n := fun he => hm (he ▸ List.mem_cons_self n ns)
        rw [hother m (fun hc => hm (List.mem_cons_of_mem n hc)),
          getSt_set_other sts hmn _]

theorem take_length_append (l₁ l₂ : List String) :
    (l₁ ++ l₂).take l₁.length = l₁ := by
  induction l₁ with
  | nil => rfl
  | cons x xs ih => simp [ih]

/-- Claim C2: behavior of startAll around the first failing service.  With a
registry whose computed start order splits as pre ++ f :: post, every
service of pre starting successfully and service f's start throwing:
if f is required, startAll stops — in reverse start order — every service
preceding f (each then currently Running), recording one rollback event per
predecessor whether its stop succeeded or merely logged a failure (the
rollback always completes, failures are not re-raised), leaves f in Error,
leaves every service of post untouched (never started), and raises a fatal
ServiceError; if f is not required, the failure is logged and iteration
continues with exactly the services of post from otherwise unchanged
state. -/
theorem startAll_failure_handling
    (cfg : ServiceConfig) (svcs : List Svc) (pre post : List String) (f : String)
    (svcF : Svc)
    (horder : calculateOrder (svcGraph svcs) = .ok (pre ++ f :: post))
    (hpre : ∀ n ∈ pre, ∀ svc, lookupSvc svcs n = some svc → svc.startOk = true)
    (hlkf : lookupSvc svcs f = some svcF)
    (hfail : svcF.startOk = false) :
    (svcF.isRequired = true →
      ∃ sts₃,
        startAll cfg svcs = .ok
          (.error (.serviceError ("Required service " ++ f ++ " failed to start")),
            sts₃,
            pre.map MgrEv.started ++ MgrEv.startFailedLogged f ::
              pre.reverse.map (stopEvFor svcs)) ∧
        (getSt sts₃ f).state = .error ∧
        (∀ n ∈ pre, (getSt sts₃ n).state = stoppedStateFor svcs n) ∧
        (∀ n ∈ post, getSt sts₃ n = initSvcState)) ∧
    (svcF.isRequired = false →
      ∃ stsMid,
        (∀ r sts₂ evs,
          startAllLoop cfg svcs (pre ++ f :: post) post stsMid = (r, sts₂, evs) →
          startAll cfg svcs = .ok
            (r, sts₂, pre.map MgrEv.started ++ MgrEv.startFailedLogged f :: evs)) ∧
        (∀ n ∈ pre, getSt stsMid n = startedSvcState cfg) ∧
        getSt stsMid f = failedStartSvcState ∧
        (∀ n, n ∉ pre → n ≠ f → getSt stsMid n = initSvcState)) := by
  obtain ⟨⟨hond, homem, _⟩, _⟩ := calculateOrder_ok horder
  obtain ⟨hpreN, hpostN, hdisj⟩ := List.nodup_append.mp hond
  have hf_pre : f ∉ pre := fun hc => hdisj hc (List.mem_cons_self f post)
  have hpost_pre : ∀ n ∈ post, n ∉ pre :=
    fun n hn hc => hdisj hc (List.mem_cons_of_mem f hn)
  have hf_post : f ∉ post := (List.nodup_cons.mp hpostN).1
  have hpost_f : ∀ n ∈ post, n ≠ f := fun n hn he => hf_post (he ▸ hn)
  have hpre_ex : ∀ n ∈ pre, ∃ svc, lookupSvc svcs n = some svc ∧ svc.startOk = true := by
    intro n hn
    obtain ⟨svc, hlk⟩ := lookupSvc_of_mem_names (homem n (List.mem_append_left _ hn))
    exact ⟨svc, hlk, hpre n hn svc hlk⟩
  obtain ⟨sts₁, heq1, hstarted, hother1⟩ :=
    startAllLoop_pre cfg svcs (pre ++ f :: post) pre (f :: post) (initStates svcs)
      hpre_ex (fun n _ => getSt_initStates svcs n) hpreN
  have hgf : getSt sts₁ f = initSvcState := by
    rw [hother1 f hf_pre, getSt_initStates]
  have hstartf := svcStart_init_fail cfg hfail
  have hAll : startAll cfg svcs =
      .ok (startAllLoop cfg svcs (pre ++ f :: post) (pre ++ f :: post) (initStates svcs)) := by
    simp [startAll, horder]
  constructor
  · intro hreq
    have hsss : stopStartedServices cfg svcs (pre ++ f :: post) f
        (setSt sts₁ f failedStartSvcState) =
        rollbackLoop cfg svcs pre.reverse (setSt sts₁ f failedStartSvcState) := by
      have hmem : f ∈ pre ++ f :: post :=
        List.mem_append_right _ (List.mem_cons_self f post)
      have hpos : posIn (pre ++ f :: post) f = pre.length := by
        rw [posIn_append_right _ hf_pre]
        simp [posIn]
      rw [stopStartedServices, if_pos hmem, hpos, take_length_append]
    have hrb_ex : ∀ n ∈ pre.reverse, ∃ svc, lookupSvc svcs n = some svc := by
      intro n hn
      obtain ⟨svc, hlk, _⟩ := hpre_ex n (List.mem_reverse.mp hn)
      exact ⟨svc, hlk⟩
    have hrb_run : ∀ n ∈ pre.reverse,
        (getSt (setSt sts₁ f failedStartSvcState) n).state = .running := by
      intro n hn
      have hnp := List.mem_reverse.mp hn
      have hnf : n ≠ f := fun he => hf_pre (he ▸ hnp)
      rw [getSt_set_other sts₁ hnf _, hstarted n hnp]
      rfl
    obtain ⟨sts₃, heq3, hstates3, hother3⟩ :=
      rollbackLoop_running cfg svcs pre.reverse (setSt sts₁ f failedStartSvcState)
        hrb_ex hrb_run (List.nodup_reverse.mpr hpreN)
    have step2 : startAllLoop cfg svcs (pre ++ f :: post) (f :: post) sts₁ =
        (.error (.serviceError ("Required service " ++ f ++ " failed to start")),
          sts₃, MgrEv.startFailedLogged f :: pre.reverse.map (stopEvFor svcs)) := by
      simp only [startAllLoop, hlkf, hgf, hstartf, if_pos hreq, hsss, heq3]
    refine ⟨sts₃, ?_, ?_, ?_, ?_⟩
    · rw [hAll, heq1, step2]
    · have hff : f ∉ pre.reverse := fun hc => hf_pre (List.mem_reverse.mp hc)
      rw [hother3 f hff, getSt_set_same]
      rfl
    · intro n hn
      exact hstates3 n (List.mem_reverse.mpr hn)
    · intro n hn
      have hnp : n ∉ pre.reverse := fun hc => hpost_pre n hn (List.mem_reverse.mp hc)
      rw [hother3 n hnp, getSt_set_other sts₁ (hpost_f n hn) _,
        hother1 n (hpost_pre n hn), getSt_initStates]
  · intro hreq
    refine ⟨setSt sts₁ f failedStartSvcState, ?_, ?_, ?_, ?_⟩
    · intro r sts₂ evs hrun
      have hnreq : ¬svcF.isRequired = true := by
        rw [hreq]
        intro hc
        cases hc
      have step2 : startAllLoop cfg svcs (pre ++ f :: post) (f :: post) sts₁ =
          (r, sts₂, MgrEv.startFailedLogged f :: evs) := by
        simp only [startAllLoop, hlkf, hgf, hstartf, if_neg hnreq, hrun]
      rw [hAll, heq1, step2]
    · intro n hn
      have hnf : n ≠ f := fun he => hf_pre (he ▸ hn)
      rw [getSt_set_other sts₁ hnf _]
      exact hstarted n hn
    · exact getSt_set_same sts₁ f failedStartSvcState
    · intro n hn hnf
      rw [getSt_set_other sts₁ hnf _, hother1 n hn, getSt_initStates]

/-- Scenario A service: A, no dependencies, starts and stops cleanly. -/
def svcA : Svc :=
  { name := "A", dependencies := [], isRequired := true,
    startOk := true, stopOk := true, health := some true }

/-- Scenario A service: B, depends on A, start fails, required. -/
def svcB : Svc :=
  { name := "B", dependencies := ["A"], isRequired := true,
    startOk := false, stopOk := true, health := some true }

/-- Variant of B that is not required. -/
def svcBOptional : Svc :=
  { name := "B", dependencies := ["A"], isRequired := false,
    startOk := false, stopOk := true, health := some true }

/-- Scenario A service: C, depends on B. -/
def svcC : Svc :=
  { name := "C", dependencies := ["B"], isRequired := true,
    startOk := true, stopOk := true, health := some true }

/-- Scenario A registration {A: []}, {B: [A]}, {C: [B]}. -/
def scenarioASvcs : List Svc := [svcA, svcB, svcC]

/-- Scenario A with the failing service not required. -/
def scenarioBSvcs : List Svc := [svcA, svcBOptional, svcC]

/-- Claim C2 witness: the theorem applied to Scenario A — start order A,B,C,
B's start fails, so C is never started, A is stopped during rollback and
startAll raises — and to its non-required variant, where iteration continues
with C. -/
theorem startAll_failure_handling_witness :
    (∃ sts₃,
      startAll DEFAULT_SERVICE_CONFIG scenarioASvcs = .ok
        (.error (.serviceError ("Required service " ++ "B" ++ " failed to start")),
          sts₃,
          ["A"].map MgrEv.started ++ MgrEv.startFailedLogged "B" ::
            ["A"].reverse.map (stopEvFor scenarioASvcs)) ∧
      (getSt sts₃ "B").state = .error ∧
      (∀ n ∈ ["A"], (getSt sts₃ n).state = stoppedStateFor scenarioASvcs n) ∧
      (∀ n ∈ ["C"], getSt sts₃ n = initSvcState)) ∧
    (∃ stsMid,
      (∀ r sts₂ evs,
        startAllLoop DEFAULT_SERVICE_CONFIG scenarioBSvcs (["A"] ++ "B" :: ["C"]) ["C"]
            stsMid = (r, sts₂, evs) →
        startAll DEFAULT_SERVICE_CONFIG scenarioBSvcs = .ok
          (r, sts₂, ["A"].map MgrEv.started ++ MgrEv.startFailedLogged "B" :: evs)) ∧
      (∀ n ∈ ["A"], getSt stsMid n = startedSvcState DEFAULT_SERVICE_CONFIG) ∧
      getSt stsMid "B" = failedStartSvcState ∧
      (∀ n, n ∉ ["A"] → n ≠ "B" → getSt stsMid n = initSvcState)) := by
  constructor
  · refine (startAll_failure_handling DEFAULT_SERVICE_CONFIG scenarioASvcs
      ["A"] ["C"] "B" svcB (by decide) ?_ (by decide) (by decide)).1 rfl
    intro n hn svc hlk
    have hA : n = "A" := by simpa using hn
    subst hA
    rw [show lookupSvc scenarioASvcs "A" = some svcA from by decide] at hlk
    rw [← Option.some.inj hlk]
    decide
  · refine (startAll_failure_handling DEFAULT_SERVICE_CONFIG scenarioBSvcs
      ["A"] ["C"] "B" svcBOptional (by decide) ?_ (by decide) (by decide)).2 rfl
    intro n hn svc hlk
    have hA : n = "A" := by simpa using hn
    subst hA
    rw [show lookupSvc scenarioBSvcs "A" = some svcA from by decide] at hlk
    rw [← Option.some.inj hlk]
    decide

/-- CoordinationConfig as read by CoordinationService.beforeStart (the type
declaration lives in src/utils/types.ts, outside the reviewed sources; the
fields here are exactly those the validation reads).  Numeric fields are
JavaScript numbers embedded as integers; deadlockDetection is a JavaScript
value that the source checks with typeof, embedded as some b for a boolean
and none for any non-boolean value. -/
structure CoordinationConfig where
  maxRetries : Int
  retryDelay : Int
  resourceTimeout : Int
  messageTimeout : Int
  deadlockDetection : Option Bool
deriving DecidableEq, Repr

/-- CoordinationService.beforeStart (coordination-service.ts lines 188-228):
configuration validation run as the pre-start hook.  Each violated bound
throws a plain Error (embedded as jsError); a maxRetries above 100 only
logs a performance warning and does not throw. -/
def coordinationBeforeStart (c : CoordinationConfig) : Except CoreError Unit :=
  if c.maxRetries < 0 then
    .error (.jsError "Max retries cannot be negative")
  else if c.retryDelay ≤ 0 then
    .error (.jsError "Retry delay must be greater than 0")
  else if c.resourceTimeout ≤ 0 then
    .error (.jsError "Resource timeout must be greater than 0")
  else if c.messageTimeout ≤ 0 then
    .error (.jsError "Message timeout must be greater than 0")
  else
    match c.deadlockDetection with
    | none => .error (.jsError "Deadlock detection must be a boolean value")
    | some _ => .ok ()

/-- BaseBackendService.start as inherited by CoordinationService: the
beforeStart hook above runs inside the try block of start(), so a validation
failure moves the service to Error and is rethrown as a ServiceStartupError;
doStartOk abstracts the outcome of the coordination manager construction and
initialization that follows a successful validation. -/
def coordinationStart (c : CoordinationConfig) (doStartOk : Bool) (st : ServiceState) :
    Except CoreError Unit × ServiceState :=
  if st = .running then
    (.ok (), st)
  else if st = .starting then
    (.error (.serviceStartupError "Service coordinationManager is already starting"), st)
  else
    match coordinationBeforeStart c with
    | .error _ =>
      (.error (.serviceStartupError "Failed to start service coordinationManager"), .error)
    | .ok _ =>
      if doStartOk then
        (.ok (), .running)
      else
        (.error (.serviceStartupError "Failed to start service coordinationManager"), .error)

/-- Claim C7: starting the coordination service validates its configuration:
whenever maxRetries < 0, retryDelay ≤ 0, resourceTimeout ≤ 0,
messageTimeout ≤ 0 or deadlockDetection is not a boolean, the validation
throws, and start() — called in any state from which it proceeds — then
moves the service to Error and raises a ServiceStartupError (a fatal startup
error, not a warning), regardless of whether the start implementation could
succeed; a configuration satisfying all the bounds passes validation. -/
theorem coordination_config_validation (c : CoordinationConfig) :
    ((c.maxRetries < 0 ∨ c.retryDelay ≤ 0 ∨ c.resourceTimeout ≤ 0 ∨
        c.messageTimeout ≤ 0 ∨ c.deadlockDetection = none) →
      (∃ m, coordinationBeforeStart c = .error (.jsError m)) ∧
      ∀ st, st ≠ .running → st ≠ .starting → ∀ ok,
        coordinationStart c ok st =
          (.error (.serviceStartupError "Failed to start service coordinationManager"),
            .error)) ∧
    ((0 ≤ c.maxRetries ∧ 0 < c.retryDelay ∧ 0 < c.resourceTimeout ∧
        0 < c.messageTimeout ∧ (∃ b, c.deadlockDetection = some b)) →
      coordinationBeforeStart c = .ok ()) := by
  constructor
  · intro hbad
    have herr : ∃ m, coordinationBeforeStart c = .error (.jsError m) := by
      unfold coordinationBeforeStart
      by_cases h1 : c.maxRetries < 0
      · exact ⟨_, by rw [if_pos h1]⟩
      · rw [if_neg h1]
        by_cases h2 : c.retryDelay ≤ 0
        · exact ⟨_, by rw [if_pos h2]⟩
        · rw [if_neg h2]
          by_cases h3 : c.resourceTimeout ≤ 0
          · exact ⟨_, by rw [if_pos h3]⟩
          · rw [if_neg h3]
            by_cases h4 : c.messageTimeout ≤ 0
            · exact ⟨_, by rw [if_pos h4]⟩
            · rw [if_neg h4]
              cases hd : c.deadlockDetection with
              | none => exact ⟨_, rfl⟩
              | some b =>
                rcases hbad with h | h | h | h | h
                · exact absurd h h1
                · exact absurd h h2
                · exact absurd h h3
                · exact absurd h h4
                · rw [hd] at h
                  cases h
    refine ⟨herr, ?_⟩
    intro st hs1 hs2 ok
    obtain ⟨m, hm⟩ := herr
    unfold coordinationStart
    rw [if_neg hs1, if_neg hs2, hm]
  · rintro ⟨h1, h2, h3, h4, b, h5⟩
    unfold coordinationBeforeStart
    rw [if_neg (by omega), if_neg (by omega), if_neg (by omega), if_neg (by omega), h5]

/-- Configuration violating the maxRetries bound. -/
def badCoordinationConfig : CoordinationConfig :=
  { maxRetries := -1, retryDelay := 100, resourceTimeout := 30000,
    messageTimeout := 30000, deadlockDetection := some true }

/-- Configuration satisfying every validated bound. -/
def goodCoordinationConfig : CoordinationConfig :=
  { maxRetries := 3, retryDelay := 100, resourceTimeout := 30000,
    messageTimeout := 30000, deadlockDetection := some true }

/-- Claim C7 witness: the theorem applied to a violating and to a valid
concrete configuration. -/
theorem coordination_config_validation_witness :
    ((∃ m, coordinationBeforeStart badCoordinationConfig = .error (.jsError m)) ∧
      ∀ st, st ≠ .running → st ≠ .starting → ∀ ok,
        coordinationStart badCoordinationConfig ok st =
          (.error (.serviceStartupError "Failed to start service coordinationManager"),
            .error)) ∧
    coordinationBeforeStart goodCoordinationConfig = .ok () := by
  constructor
  · exact (coordination_config_validation badCoordinationConfig).1 (Or.inl (by decide))
  · exact (coordination_config_validation goodCoordinationConfig).2
      ⟨by decide, by decide, by decide, by decide, true, rfl⟩

/-- Backend component as registered with BackendInitializer: the metadata of
IBackendComponent plus the abstract outcome of its initialize() attempt
through the circuit breaker and bounded retry (initOk; the source's error
message suffix is abstracted away with it) and the healthy flag its
getHealthStatus reports. -/
structure Component where
  name : String
  isRequired : Bool
  dependencies : List String
  initOk : Bool
  healthy : Bool
deriving DecidableEq, Repr

/-- Dependency graph of the registered components. -/
def compGraph (comps : List Component) : Graph :=
  comps.map (fun c => (c.name, c.dependencies))

/-- Registry lookup this.components.get(name). -/
def lookupComp (comps : List Component) (n : String) : Option Component :=
  comps.find? (fun c => c.name == n)

/-- Per-component loop of BackendInitializer.initialize (backend-initializer.ts
lines 99-134): initialize each component of the order in turn; a success is
added to the initialized set, a failure is recorded with its fatal flag and,
for a required component, aborts with an InitializationError. -/
def initLoop (comps : List Component) :
    List String → List String → List (String × Bool) →
    Except CoreError (List String × List (String × Bool))
  | [], inited, failed => .ok (inited, failed)
  | n :: rest, inited, failed =>
    match lookupComp comps n with
    | none => initLoop comps rest inited failed
    | some c =>
      if c.initOk then
        initLoop comps rest (inited ++ [n]) failed
      else if c.isRequired then
        .error (.initializationError ("Required component " ++ n ++ " failed to initialize"))
      else
        initLoop comps rest inited (failed ++ [(n, false)])

/-- BackendInitializer.verifySystemIntegration (lines 412-435): the critical
components logger, config and eventBus must all be in the initialized set;
otherwise an InitializationError naming the missing ones is thrown.  The
event-bus connectivity test that follows only logs a warning on failure. -/
def verifySystemIntegration (inited : List String) : Except CoreError Unit :=
  let missing := ["logger", "config", "eventBus"].filter (fun n => !(inited.contains n))
  if 0 < missing.length then
    .error (.initializationError
      ("Critical components not initialized: " ++ String.intercalate ", " missing))
  else
    .ok ()

/-- Fields of BackendInitializationResult that the claims concern (timing
and the per-component health map are dropped; success is true exactly when
initialize() returns instead of throwing, since every fatal failure
throws). -/
structure InitResult where
  initializedComponents : List String
  failedComponents : List (String × Bool)
deriving DecidableEq, Repr

/-- BackendInitializer.initialize (lines 75-171): compute the order, run the
per-component loop, then the post-initialization checks — the health
statuses of the initialized components are collected (logged only), then
verifySystemIntegration runs.  Any thrown error propagates to the caller
after a best-effort cleanup of the already-initialized components, which
does not change the error. -/
def backendInitialize (comps : List Component) : Except CoreError InitResult :=
  match calculateInitializationOrder (compGraph comps) with
  | .error e => .error e
  | .ok order =>
    match initLoop comps order [] [] with
    | .error e => .error e
    | .ok (inited, failed) =>
      match verifySystemIntegration inited with
      | .error e => .error e
      | .ok _ => .ok { initializedComponents := inited, failedComponents := failed }

theorem initLoop_all_ok (comps : List Component)
    (hok : ∀ c ∈ comps, c.initOk = true) :
    ∀ ns inited failed, ∃ inited',
      initLoop comps ns inited failed = .ok (inited', failed) ∧
      ∀ x ∈ inited', x ∈ inited ∨ x ∈ ns := by
  intro ns
  induction ns with
  | nil =>
    exact fun inited failed => ⟨inited, rfl, fun x hx => Or.inl hx⟩
  | cons n rest ih =>
    intro inited failed
    cases hlk : lookupComp comps n with
    | none =>
      obtain ⟨inited', heq, hsub⟩ := ih inited failed
      exact ⟨inited', by simp [initLoop, hlk, heq],
        fun x hx => (hsub x hx).imp id (List.mem_cons_of_mem n)⟩
    | some c =>
      have hco : c.initOk = true := hok c (List.mem_of_find?_eq_some hlk)
      obtain ⟨inited', heq, hsub⟩ := ih (inited ++ [n]) failed
      refine ⟨inited', by simp [initLoop, hlk, hco, heq], ?_⟩
      intro x hx
      rcases hsub x hx with hx | hx
      · rcases List.mem_append.mp hx with hx | hx
        · exact Or.inl hx
        · exact Or.inr (by rw [List.mem_singleton.mp hx]; exact List.mem_cons_self n rest)
      · exact Or.inr (List.mem_cons_of_mem n hx)

/-- Claim C8: after the per-component loop, the post-initialization pass
requires the critical components named logger, config and eventBus to be in
the initialized set; when one of them — here config, absent from the
registry — is missing, initialize() raises an InitializationError naming it
even though no individual component reported a failure. -/
theorem initialize_critical_components_check
    (comps : List Component) (order : List String)
    (horder : calculateInitializationOrder (compGraph comps) = .ok order)
    (hok : ∀ c ∈ comps, c.initOk = true)
    (hconfig : "config" ∉ comps.map Component.name) :
    ∃ missing, "config" ∈ missing ∧ missing ≠ [] ∧
      backendInitialize comps = .error
        (.initializationError
          ("Critical components not initialized: " ++ String.intercalate ", " missing)) := by
  have horder0 : calculateOrder (compGraph comps) = .ok order := by
    unfold calculateInitializationOrder at horder
    cases hres : calculateOrder (compGraph comps) with
    | ok o =>
      rw [hres] at horder
      cases horder
      rfl
    | error e =>
      rw [hres] at horder
      cases e <;> cases horder
  have homem : ∀ x ∈ order, x ∈ names (compGraph comps) :=
    (calculateOrder_ok horder0).1.2.1
  obtain ⟨inited, heq, hsub⟩ := initLoop_all_ok comps hok order [] []
  have hcfg_not : "config" ∉ inited := by
    intro hc
    rcases hsub _ hc with hx | hx
    · cases hx
    · have := homem _ hx
      simp only [compGraph, names, List.map_map] at this
      exact hconfig (by simpa [Function.comp] using this)
  have hcontains : inited.contains "config" = false := by
    by_cases h : "config" ∈ inited
    · exact absurd h hcfg_not
    · simpa using h
  refine ⟨["logger", "config", "eventBus"].filter (fun n => !(inited.contains n)), ?_, ?_, ?_⟩
  · apply List.mem_filter.mpr
    refine ⟨by decide, ?_⟩
    rw [hcontains]
    rfl
  · intro hnil
    have : "config" ∈ ["logger", "config", "eventBus"].filter (fun n => !(inited.contains n)) := by
      apply List.mem_filter.mpr
      refine ⟨by decide, ?_⟩
      rw [hcontains]
      rfl
    rw [hnil] at this
    cases this
  · have hlen : 0 < (["logger", "config", "eventBus"].filter
        (fun n => !(inited.contains n))).length := by
      apply List.length_pos.mpr
      intro hnil
      have : "config" ∈ ["logger", "config", "eventBus"].filter
          (fun n => !(inited.contains n)) := by
        apply List.mem_filter.mpr
        refine ⟨by decide, ?_⟩
        rw [hcontains]
        rfl
      rw [hnil] at this
      cases this
    simp only [backendInitialize, horder, heq, verifySystemIntegration, if_pos hlen]

/-- Logger component built by BackendComponentFactory.createLoggerComponent
(backend-initializer.ts lines 509-533); ok abstracts whether
logger.configure succeeds. -/
def loggerComponent (ok : Bool) : Component :=
  { name := "logger", isRequired := true, dependencies := [],
    initOk := ok, healthy := true }

/-- Event-bus component built by createEventBusComponent (lines 535-556);
ok abstracts its (trivial) initialize. -/
def eventBusComponent (ok : Bool) : Component :=
  { name := "eventBus", isRequired := true, dependencies := ["logger"],
    initOk := ok, healthy := true }

/-- Claim C8 witness: the theorem applied to the concrete registry holding
only the factory's logger and eventBus components, both initializing
cleanly. -/
theorem initialize_critical_components_check_witness :
    ∃ missing, "config" ∈ missing ∧ missing ≠ [] ∧
      backendInitialize [loggerComponent true, eventBusComponent true] = .error
        (.initializationError
          ("Critical components not initialized: " ++ String.intercalate ", " missing)) :=
  initialize_critical_components_check
    [loggerComponent true, eventBusComponent true] ["logger", "eventBus"]
    (by decide) (by decide) (by decide)

/-- BackendOrchestrator.initialize (backend-orchestrator.ts lines 69-126).
Phase 1 (initializeCoreComponents, lines 181-199) registers only the logger
and eventBus components and runs initializer.initialize(); the later phases
(service creation, startAll, health verification) run only if phase 1
returns, abstracted by remainingPhasesOk; the catch block turns any thrown
error into InitializationError("Backend orchestration failed") after
cleanup. -/
def orchestratorInitialize (loggerOk eventBusOk remainingPhasesOk : Bool) :
    Except CoreError Unit :=
  match backendInitialize [loggerComponent loggerOk, eventBusComponent eventBusOk] with
  | .error _ => .error (.initializationError "Backend orchestration failed")
  | .ok _ =>
    if remainingPhasesOk then .ok ()
    else .error (.initializationError "Backend orchestration failed")

/-- Claim C9: BackendOrchestrator.initialize() raises an InitializationError
on every run: the core-component phase registers only components named
logger and eventBus while the initializer's system-integration check
requires one named config, so phase 1 always throws — whatever the outcome
of the two component initializations or of the never-reached later phases —
and with both components initializing cleanly the phase-1 error is exactly
the integration check's complaint about config. -/
theorem orchestrator_initialize_always_fails :
    (∀ loggerOk eventBusOk remainingPhasesOk,
      orchestratorInitialize loggerOk eventBusOk remainingPhasesOk =
        .error (.initializationError "Backend orchestration failed")) ∧
    backendInitialize [loggerComponent true, eventBusComponent true] =
      .error (.initializationError "Critical components not initialized: config") := by
  constructor
  · intro loggerOk eventBusOk remainingPhasesOk
    cases loggerOk <;> cases eventBusOk <;> cases remainingPhasesOk <;> decide
  · decide

/-- Service whose health predicate always reports unhealthy. -/
def unhealthySvc : Svc :=
  { name := "svc", dependencies := [], isRequired := true,
    startOk := true, stopOk := true, health := some false }

/-- Runtime state of a running node whose restart count has reached the
default cap of three. -/
def cappedState : SvcState :=
  { state := .running, restartCount := 3, errorCount := 0, healthChecksActive := true }

/-- Claim C3 witness: the theorem applied to an unhealthy service below and
at the restart cap of the default configuration. -/
theorem healthTick_restart_cap_witness :
    ((0 : Nat) < 3 ∧ DEFAULT_SERVICE_CONFIG.enableAutoRestart = true ∧
      (svcHealthCheck unhealthySvc runningActiveState.state).1 = false) ∧
    svcTick DEFAULT_SERVICE_CONFIG unhealthySvc cappedState =
      ⟨{ cappedState with state := .error }, [.error], false, true⟩ ∧
    ((svcTicks DEFAULT_SERVICE_CONFIG unhealthySvc 5 cappedState).1).restartCount ≤ 3 ∧
    (svcTicks DEFAULT_SERVICE_CONFIG unhealthySvc 5 cappedState).2 = 0 := by
  refine ⟨?_, ?_, ?_, ?_⟩
  · exact (healthTick_restart_cap DEFAULT_SERVICE_CONFIG unhealthySvc
      runningActiveState).1 (by decide)
  · exact (healthTick_restart_cap DEFAULT_SERVICE_CONFIG unhealthySvc
      cappedState).2.1 (by decide) (by decide) (by decide)
  · exact (healthTick_restart_cap DEFAULT_SERVICE_CONFIG unhealthySvc
      cappedState).2.2.1 (by decide) 5
  · exact (healthTick_restart_cap DEFAULT_SERVICE_CONFIG unhealthySvc
      cappedState).2.2.2 (by decide) 5

/-- Claim C4 witness: the amended theorem applied to a concrete operation
sequence, and its edge-comparison conjunct applied at the code's
Error→Starting recovery edge. -/
theorem lifecycle_transitions_witness :
    chainOK codeAllowed .stopped
      (runOps DEFAULT_SERVICE_CONFIG probeSvc [.start, .tick, .stop] initSvcState).2 = true ∧
    (claimAllowed .error .starting = true ∨
      (ServiceState.error = ServiceState.error ∧
        (ServiceState.starting = ServiceState.starting ∨
          ServiceState.starting = ServiceState.stopping))) := by
  constructor
  · exact (lifecycle_transitions DEFAULT_SERVICE_CONFIG probeSvc [.start, .tick, .stop]).1
  · exact (lifecycle_transitions DEFAULT_SERVICE_CONFIG probeSvc []).2 .error .starting
      (by decide)

end ClaudeFlow
